import Mathlib

/-!
Shallow embedding of the vehicle-can-dashboard repository's simulator and
CAN codec (notebooks 01_data_generator.py, 02_generate_dbc.py,
04_vehicle_dlt_udf.py).  Machine floats of the Python source are modelled
as rationals; `bytes` values as `List ℕ` of byte values; Python exceptions
(`struct.error`, cantools decode errors) as `Except Unit`.
-/

deriving instance DecidableEq for Except

namespace VehicleCan

/-- Python `int(q)`: truncation toward zero. -/
def truncQ (q : ℚ) : ℤ := if 0 ≤ q then ⌊q⌋ else ⌈q⌉

/-- `struct.pack(">H", n)`: big-endian unsigned 16-bit; raises
`struct.error` when `n` is outside `[0, 65535]`. -/
def pack16BE (n : ℤ) : Except Unit (List ℕ) :=
  if 0 ≤ n ∧ n ≤ 65535 then .ok [n.toNat / 256, n.toNat % 256] else .error ()

/-- `struct.pack(">B", n)`: unsigned byte; raises outside `[0, 255]`. -/
def pack8 (n : ℤ) : Except Unit (List ℕ) :=
  if 0 ≤ n ∧ n ≤ 255 then .ok [n.toNat] else .error ()

/-- `encode_vehicle_speed` (01_data_generator.py): raw = `int(speed_kmh / 0.01)`,
packed `">H"` followed by six zero bytes. -/
def encode_vehicle_speed (speed_kmh : ℚ) : Except Unit (List ℕ) := do
  let b ← pack16BE (truncQ (speed_kmh / (0.01 : ℚ)))
  pure (b ++ List.replicate 6 0)

/-- `encode_engine_data` (01_data_generator.py): rpm raw 16-bit big-endian,
throttle raw one byte, then five zero bytes (`struct.pack(">HB", ...)`). -/
def encode_engine_data (rpm throttle_pct : ℚ) : Except Unit (List ℕ) := do
  let b1 ← pack16BE (truncQ (rpm / (0.25 : ℚ)))
  let b2 ← pack8 (truncQ (throttle_pct / (0.4 : ℚ)))
  pure (b1 ++ b2 ++ List.replicate 5 0)

/-- `encode_brake_data` (01_data_generator.py): pressure raw byte, active
flag byte, then six zero bytes (`struct.pack(">BB", ...)`). -/
def encode_brake_data (pressure : ℚ) (active : Bool) : Except Unit (List ℕ) := do
  let b1 ← pack8 (truncQ (pressure / (0.4 : ℚ)))
  let b2 ← pack8 (if active then 1 else 0)
  pure (b1 ++ b2 ++ List.replicate 6 0)

/-- `encode_steering_data` (01_data_generator.py): raw = `int((angle+1080)/0.1)`,
packed `">H"` followed by six zero bytes. -/
def encode_steering_data (angle : ℚ) : Except Unit (List ℕ) := do
  let b ← pack16BE (truncQ ((angle + 1080) / (0.1 : ℚ)))
  pure (b ++ List.replicate 6 0)

/-! ## The signal dictionary (vehicle.dbc, generated by 02_generate_dbc.py)

Every signal in `DBC_CONTENT` is declared `@1+`, i.e. little-endian
(Intel) unsigned, with the given start bit, bit length, scale and offset. -/

structure SignalDef where
  name : String
  startBit : ℕ
  bitLength : ℕ
  scale : ℚ
  offset : ℚ
deriving DecidableEq

structure MessageDef where
  frameId : ℕ
  name : String
  msgLength : ℕ
  signals : List SignalDef
deriving DecidableEq

/-- The four `BO_` entries of `DBC_CONTENT`. -/
def dbcMessages : List MessageDef :=
  [ ⟨256, "VehicleSpeed", 8, [⟨"speed_kmh", 0, 16, (0.01 : ℚ), 0⟩]⟩,
    ⟨257, "EngineData", 8,
      [⟨"rpm", 0, 16, (0.25 : ℚ), 0⟩, ⟨"throttle", 16, 8, (0.4 : ℚ), 0⟩]⟩,
    ⟨258, "BrakeData", 8,
      [⟨"pressure", 0, 8, (0.4 : ℚ), 0⟩, ⟨"active", 8, 1, 1, 0⟩]⟩,
    ⟨259, "SteeringData", 8, [⟨"angle", 0, 16, (0.1 : ℚ), -1080⟩]⟩ ]

/-- `db.get_message_by_frame_id` (cantools); an unknown id raises KeyError in
cantools, which `decode_can_frame` catches — observably a failed lookup. -/
def getMessageByFrameId (arb : ℕ) : Option MessageDef :=
  dbcMessages.find? (fun m => m.frameId = arb)

/-- Little-endian integer value of a byte list (byte 0 is least significant). -/
def leWord (d : List ℕ) : ℕ := d.foldr (fun b acc => b + 256 * acc) 0

/-- Raw (wire) value of a little-endian unsigned signal, per cantools for a
`@1+` DBC signal: take the little-endian payload word, shift right by the
start bit, mask to the bit length. -/
def rawSignal (d : List ℕ) (s : SignalDef) : ℕ :=
  leWord d / 2 ^ s.startBit % 2 ^ s.bitLength

/-- Physical value: `raw * scale + offset`. -/
def physSignal (d : List ℕ) (s : SignalDef) : ℚ :=
  (rawSignal d s : ℚ) * s.scale + s.offset

/-- `message.decode(data)` (cantools): raises when the payload is shorter
than the message's declared length; otherwise decodes every declared signal
of the first `msgLength` bytes. -/
def messageDecode (m : MessageDef) (d : List ℕ) : Except Unit (List (String × ℚ)) :=
  if d.length < m.msgLength then .error ()
  else .ok (m.signals.map (fun s => (s.name, physSignal (d.take m.msgLength) s)))

/-- `decoded.get(name)` on the decoded-signal dictionary. -/
def lookupSig (sigs : List (String × ℚ)) (n : String) : Option ℚ :=
  (sigs.find? (fun p => p.1 = n)).map (fun p => p.2)

/-- The struct produced by `decode_can_frame` (04_vehicle_dlt_udf.py). -/
structure Decoded where
  message_name : Option String
  speed_kmh : Option ℚ
  rpm : Option ℚ
  throttle_pct : Option ℚ
  brake_pressure : Option ℚ
  brake_active : Option Bool
  steering_angle : Option ℚ
deriving DecidableEq

/-- The all-unset result `decode_can_frame` starts from. -/
def emptyDecoded : Decoded := ⟨none, none, none, none, none, none, none⟩

/-- `decode_can_frame(arb_id, data)` (04_vehicle_dlt_udf.py).  `data = none`
models Python `None`.  The `try`/`except` is modelled by the `Except`
results: any internal error returns the result record as accumulated so far
(note `result["message_name"]` is assigned *before* `message.decode`). -/
def decode_can_frame (arb : ℕ) (data : Option (List ℕ)) : Decoded :=
  match data with
  | none => emptyDecoded
  | some d =>
    if d.length = 0 then emptyDecoded
    else
      match getMessageByFrameId arb with
      | none => emptyDecoded
      | some msg =>
        let r1 : Decoded := { emptyDecoded with message_name := some msg.name }
        match messageDecode msg d with
        | .error _ => r1
        | .ok sigs =>
          if msg.name = "VehicleSpeed" then
            { r1 with speed_kmh := lookupSig sigs "speed_kmh" }
          else if msg.name = "EngineData" then
            { r1 with rpm := lookupSig sigs "rpm",
                      throttle_pct := lookupSig sigs "throttle" }
          else if msg.name = "BrakeData" then
            { r1 with brake_pressure := lookupSig sigs "pressure",
                      brake_active :=
                        some (decide (((lookupSig sigs "active").getD 0) ≠ 0)) }
          else if msg.name = "SteeringData" then
            { r1 with steering_angle := lookupSig sigs "angle" }
          else r1

example : encode_vehicle_speed 100 = .ok [39, 16, 0, 0, 0, 0, 0, 0] := by
  norm_num [encode_vehicle_speed, pack16BE, truncQ]
  decide
example : (decode_can_frame 256 (some [39, 16, 0, 0, 0, 0, 0, 0])).speed_kmh
    = some (4135 / 100 : ℚ) := by
  norm_num [decode_can_frame, getMessageByFrameId, dbcMessages, messageDecode,
    physSignal, rawSignal, leWord, lookupSig, emptyDecoded]
example : decode_can_frame 999 (some [1, 2, 3]) = emptyDecoded := by
  norm_num [decode_can_frame, getMessageByFrameId, dbcMessages]
example : decode_can_frame 256 (some [1]) =
    { emptyDecoded with message_name := some "VehicleSpeed" } := by
  norm_num [decode_can_frame, getMessageByFrameId, dbcMessages, messageDecode]
example : encode_steering_data (-21601 / 20) = .ok [0, 0, 0, 0, 0, 0, 0, 0] := by
  simp only [encode_steering_data]
  rw [show truncQ (((-21601 / 20 : ℚ) + 1080) / (0.1 : ℚ)) = 0 by norm_num [truncQ]]
  decide

/-! ## Claims about the codec -/

/-- C3: encoding `speed_kmh = 100.0` with the VehicleSpeed encoder produces
exactly the 8-byte payload `27 10 00 00 00 00 00 00` (raw 10000 = 0x2710
big-endian in bytes 0..1, six zero bytes after). -/
theorem encode_speed_100_gives_2710 :
    encode_vehicle_speed 100 = .ok [0x27, 0x10, 0, 0, 0, 0, 0, 0] := by
  norm_num [encode_vehicle_speed, pack16BE, truncQ]
  decide

/-- C1 (code bug): the round-trip `decode(encode(x)) = x ± scale/2` fails.
The encoder writes the 16-bit speed raw value big-endian, but the generated
DBC declares the signal `@1+` (little-endian), so the dictionary-driven
decoder byte-swaps it: `decode(encode(100.0))` yields 41.35 km/h, far
outside half a quantization step of 100.0. -/
theorem roundtrip_broken_by_byte_order :
    encode_vehicle_speed 100 = .ok [0x27, 0x10, 0, 0, 0, 0, 0, 0] ∧
    (decode_can_frame 0x100 (some [0x27, 0x10, 0, 0, 0, 0, 0, 0])).speed_kmh
      = some (4135 / 100) ∧
    ¬ |(4135 / 100 : ℚ) - 100| ≤ (0.01 : ℚ) / 2 := by
  refine ⟨?_, ?_, ?_⟩
  · norm_num [encode_vehicle_speed, pack16BE, truncQ]
    decide
  · norm_num [decode_can_frame, getMessageByFrameId, dbcMessages, messageDecode,
      physSignal, rawSignal, leWord, lookupSig, emptyDecoded]
  · rw [abs_of_nonpos (by norm_num)]
    norm_num

/-- Modelled from the spec: "raw = round((physical_value − offset) / scale)
— i.e. nearest-integer rounding".  Rounds to the nearest integer (half up;
tie behavior is immaterial at the inputs probed below, which are not ties). -/
def roundQspec (q : ℚ) : ℤ := ⌊q + 1 / 2⌋

/-- Modelled from the spec: the VehicleSpeed encoder as the spec describes
it, identical to `encode_vehicle_speed` except for nearest-integer rounding
in place of the code's `int()` truncation. -/
def encode_vehicle_speed_spec (speed_kmh : ℚ) : Except Unit (List ℕ) := do
  let b ← pack16BE (roundQspec (speed_kmh / (0.01 : ℚ)))
  pure (b ++ List.replicate 6 0)

/-- C2 counterexample: at `speed_kmh = 0.019` the claimed nearest-integer
rounding gives raw 2 (payload `00 02 ...`) but the code's `int()` truncation
gives raw 1 (payload `00 01 ...`), so the encoder does not round. -/
theorem encode_speed_truncates_at_0019 :
    encode_vehicle_speed (19 / 1000) = .ok [0, 1, 0, 0, 0, 0, 0, 0] ∧
    encode_vehicle_speed_spec (19 / 1000) = .ok [0, 2, 0, 0, 0, 0, 0, 0] ∧
    encode_vehicle_speed (19 / 1000) ≠ encode_vehicle_speed_spec (19 / 1000) := by
  have h1 : encode_vehicle_speed (19 / 1000) = .ok [0, 1, 0, 0, 0, 0, 0, 0] := by
    simp only [encode_vehicle_speed]
    rw [show truncQ ((19 / 1000 : ℚ) / (0.01 : ℚ)) = 1 by norm_num [truncQ]]
    decide
  have h2 : encode_vehicle_speed_spec (19 / 1000) = .ok [0, 2, 0, 0, 0, 0, 0, 0] := by
    simp only [encode_vehicle_speed_spec]
    rw [show roundQspec ((19 / 1000 : ℚ) / (0.01 : ℚ)) = 2 by norm_num [roundQspec]]
    decide
  refine ⟨h1, h2, ?_⟩
  rw [h1, h2]
  decide

/-- C2 as amended: each encoder computes its raw value by Python `int()`
truncation toward zero (not nearest-integer rounding) of
`(physical − offset) / scale`, and, whenever every raw value fits its
field, writes it as a big-endian unsigned integer in the signal's byte
range with all unused payload bytes zero: payload length is 8, byte0*256 +
byte1 recovers the 16-bit raw, single-byte raws are stored verbatim, and
each emitted byte is < 256. -/
theorem encoders_truncate_bigendian_zerofill
    (s r t p g : ℚ) (b : Bool)
    (hs0 : 0 ≤ truncQ (s / (0.01 : ℚ))) (hs1 : truncQ (s / (0.01 : ℚ)) ≤ 65535)
    (hr0 : 0 ≤ truncQ (r / (0.25 : ℚ))) (hr1 : truncQ (r / (0.25 : ℚ)) ≤ 65535)
    (ht0 : 0 ≤ truncQ (t / (0.4 : ℚ))) (ht1 : truncQ (t / (0.4 : ℚ)) ≤ 255)
    (hp0 : 0 ≤ truncQ (p / (0.4 : ℚ))) (hp1 : truncQ (p / (0.4 : ℚ)) ≤ 255)
    (hg0 : 0 ≤ truncQ ((g + 1080) / (0.1 : ℚ)))
    (hg1 : truncQ ((g + 1080) / (0.1 : ℚ)) ≤ 65535) :
    (encode_vehicle_speed s = .ok [(truncQ (s / (0.01 : ℚ))).toNat / 256,
        (truncQ (s / (0.01 : ℚ))).toNat % 256, 0, 0, 0, 0, 0, 0] ∧
      256 * ((truncQ (s / (0.01 : ℚ))).toNat / 256)
          + (truncQ (s / (0.01 : ℚ))).toNat % 256 = (truncQ (s / (0.01 : ℚ))).toNat ∧
      (truncQ (s / (0.01 : ℚ))).toNat / 256 < 256 ∧
      (truncQ (s / (0.01 : ℚ))).toNat % 256 < 256) ∧
    (encode_engine_data r t = .ok [(truncQ (r / (0.25 : ℚ))).toNat / 256,
        (truncQ (r / (0.25 : ℚ))).toNat % 256, (truncQ (t / (0.4 : ℚ))).toNat,
        0, 0, 0, 0, 0] ∧
      256 * ((truncQ (r / (0.25 : ℚ))).toNat / 256)
          + (truncQ (r / (0.25 : ℚ))).toNat % 256 = (truncQ (r / (0.25 : ℚ))).toNat ∧
      (truncQ (r / (0.25 : ℚ))).toNat / 256 < 256 ∧
      (truncQ (t / (0.4 : ℚ))).toNat < 256) ∧
    (encode_brake_data p b = .ok [(truncQ (p / (0.4 : ℚ))).toNat,
        if b then 1 else 0, 0, 0, 0, 0, 0, 0] ∧
      (truncQ (p / (0.4 : ℚ))).toNat < 256) ∧
    (encode_steering_data g = .ok [(truncQ ((g + 1080) / (0.1 : ℚ))).toNat / 256,
        (truncQ ((g + 1080) / (0.1 : ℚ))).toNat % 256, 0, 0, 0, 0, 0, 0] ∧
      256 * ((truncQ ((g + 1080) / (0.1 : ℚ))).toNat / 256)
          + (truncQ ((g + 1080) / (0.1 : ℚ))).toNat % 256
        = (truncQ ((g + 1080) / (0.1 : ℚ))).toNat ∧
      (truncQ ((g + 1080) / (0.1 : ℚ))).toNat / 256 < 256) := by
  have hdiv : ∀ n : ℤ, 0 ≤ n → n ≤ 65535 → n.toNat / 256 < 256 := by
    intro n h0 h1
    have : n.toNat ≤ 65535 := by omega
    omega
  have hb8 : ∀ n : ℤ, 0 ≤ n → n ≤ 255 → n.toNat < 256 := by intro n h0 h1; omega
  refine ⟨⟨?_, Nat.div_add_mod _ 256, hdiv _ hs0 hs1, Nat.mod_lt _ (by norm_num)⟩,
    ⟨?_, Nat.div_add_mod _ 256, hdiv _ hr0 hr1, hb8 _ ht0 ht1⟩,
    ⟨?_, hb8 _ hp0 hp1⟩,
    ⟨?_, Nat.div_add_mod _ 256, hdiv _ hg0 hg1⟩⟩
  · simp only [encode_vehicle_speed, pack16BE, if_pos (And.intro hs0 hs1)]
    rfl
  · simp only [encode_engine_data, pack16BE, pack8, if_pos (And.intro hr0 hr1),
      if_pos (And.intro ht0 ht1)]
    rfl
  · have hb : (0 : ℤ) ≤ (if b then 1 else 0) ∧ ((if b then 1 else 0) : ℤ) ≤ 255 := by
      cases b <;> norm_num
    simp only [encode_brake_data, pack8, if_pos (And.intro hp0 hp1), if_pos hb]
    cases b <;> rfl
  · simp only [encode_steering_data, pack16BE, if_pos (And.intro hg0 hg1)]
    rfl

/-- Witness for `encoders_truncate_bigendian_zerofill` at speed 100, rpm 800,
throttle 20, pressure 40, steering 0, brake flag true. -/
theorem encoders_truncate_bigendian_zerofill_witness :
    encode_vehicle_speed 100 = .ok [(truncQ ((100 : ℚ) / (0.01 : ℚ))).toNat / 256,
        (truncQ ((100 : ℚ) / (0.01 : ℚ))).toNat % 256, 0, 0, 0, 0, 0, 0] := by
  have h := encoders_truncate_bigendian_zerofill 100 800 20 40 0 true
    (by norm_num [truncQ]) (by norm_num [truncQ]) (by norm_num [truncQ])
    (by norm_num [truncQ]) (by norm_num [truncQ]) (by norm_num [truncQ])
    (by norm_num [truncQ]) (by norm_num [truncQ]) (by norm_num [truncQ])
    (by norm_num [truncQ])
  exact h.1.1

/-- C4: decoding an identifier absent from the dictionary (any payload), or
any identifier with an absent (`None`) or empty payload, returns the
all-unset result; `decode_can_frame` is a total function (never raises). -/
theorem decode_unknown_or_empty_allunset :
    (∀ arb d, getMessageByFrameId arb = none →
      decode_can_frame arb (some d) = emptyDecoded) ∧
    (∀ arb, decode_can_frame arb none = emptyDecoded) ∧
    (∀ arb, decode_can_frame arb (some []) = emptyDecoded) := by
  refine ⟨fun arb d h => ?_, fun arb => rfl, fun arb => rfl⟩
  simp only [decode_can_frame, h]
  split <;> rfl

/-- Witness for `decode_unknown_or_empty_allunset`: identifier 0x999 is not
in the dictionary and decodes (with a nonempty payload) to the all-unset
result; a known identifier with `None` or empty payload does too. -/
theorem decode_unknown_or_empty_allunset_witness :
    decode_can_frame 0x999 (some [1, 2, 3]) = emptyDecoded ∧
    decode_can_frame 0x100 none = emptyDecoded ∧
    decode_can_frame 0x100 (some []) = emptyDecoded :=
  ⟨decode_unknown_or_empty_allunset.1 0x999 [1, 2, 3] rfl,
    decode_unknown_or_empty_allunset.2.1 0x100,
    decode_unknown_or_empty_allunset.2.2 0x100⟩

/-- C5 counterexample: for the known identifier 0x100 and the truncated
1-byte payload `01`, `decode_can_frame` does NOT return the all-unset
result: `message_name` is assigned before `message.decode` raises, so the
caught exception leaves a partial result with `message_name` set and every
signal field null. -/
theorem decode_truncated_is_partial_not_empty :
    decode_can_frame 0x100 (some [1]) ≠ emptyDecoded ∧
    (decode_can_frame 0x100 (some [1])).message_name = some "VehicleSpeed" ∧
    (decode_can_frame 0x100 (some [1])).speed_kmh = none := by
  have h : decode_can_frame 0x100 (some [1]) =
      { emptyDecoded with message_name := some "VehicleSpeed" } := by
    norm_num [decode_can_frame, getMessageByFrameId, dbcMessages, messageDecode]
  rw [h]
  refine ⟨?_, rfl, rfl⟩
  simp [emptyDecoded]

/-- C5 as amended: when the identifier is known but parsing the non-empty
payload fails internally (payload shorter than the message's declared
length), `decode_can_frame` never raises and returns the result accumulated
so far — `message_name` set to the message's name and every signal field
unset — rather than the fully-empty result of the unknown-identifier case. -/
theorem decode_internal_error_partial (arb : ℕ) (msg : MessageDef) (d : List ℕ)
    (hm : getMessageByFrameId arb = some msg) (hne : d.length ≠ 0)
    (hshort : d.length < msg.msgLength) :
    decode_can_frame arb (some d) =
      { emptyDecoded with message_name := some msg.name } := by
  simp only [decode_can_frame, hm, if_neg hne, messageDecode, if_pos hshort]

/-- Witness for `decode_internal_error_partial` at identifier 0x100 with the
1-byte payload `01`. -/
theorem decode_internal_error_partial_witness :
    decode_can_frame 0x100 (some [1]) =
      { emptyDecoded with message_name := some "VehicleSpeed" } :=
  decode_internal_error_partial 0x100
    ⟨256, "VehicleSpeed", 8, [⟨"speed_kmh", 0, 16, (0.01 : ℚ), 0⟩]⟩ [1]
    rfl (by decide) (by decide)

/-! ## The driving-scenario simulator (01_data_generator.py)

Python's process-wide seeded PRNG is modelled by two abstract draw streams:
`u : ℕ → ℚ` supplies the successive unit draws behind `random.uniform(a,b)`
(value `a + (b-a)·u i`, consumed in call order via an index threaded through
the state), and `di : ℕ → ℤ` supplies the successive
`random.randint(2000,4000)` results.  A seeded run corresponds to one fixed
pair of streams.  Timestamps are carried in integer milliseconds relative
to the epoch; `start` is the `datetime.now()` value of the run. -/

structure VehicleState where
  speed_kmh : ℚ
  rpm : ℚ
  throttle_pct : ℚ
  brake_pressure : ℚ
  brake_active : Bool
  steering_angle : ℚ
deriving DecidableEq

/-- `VehicleState()` defaults. -/
def initVehicleState : VehicleState := ⟨0, 800, 0, 0, false, 0⟩

/-- One scheduled event: type tag, description and the optional
`steering` / `throttle` / `brake` parameters of the source dicts. -/
structure SimEvent where
  ty : String
  description : String
  steering : Option ℚ := none
  throttle : Option ℚ := none
  brake : Option ℚ := none
deriving DecidableEq

structure DrivingPhase where
  name : String
  start_sec : ℚ
  end_sec : ℚ
  target_speed : ℚ
  events : List (ℚ × SimEvent)
deriving DecidableEq

/-- `RealisticDrivingScenario._create_phases`: the nine phases, with start
and end seconds scaled by `duration/600`; each event is (time_offset within
the phase, event). -/
def create_phases (duration : ℕ) : List DrivingPhase :=
  let scale : ℚ := (duration : ℚ) / 600
  [ ⟨"departure", 0 * scale, 60 * scale, 40,
      [(5, { ty := "start_engine", description := "engine start" })]⟩,
    ⟨"city_driving", 60 * scale, 180 * scale, 50,
      [(20, { ty := "traffic_stop", description := "signal stop" }),
       (50, { ty := "right_turn", description := "right turn", steering := some 450 }),
       (80, { ty := "traffic_stop", description := "signal stop" }),
       (100, { ty := "left_turn", description := "left turn", steering := some (-400) })]⟩,
    ⟨"highway_merge", 180 * scale, 240 * scale, 100,
      [(10, { ty := "hard_acceleration", description := "merge accel", throttle := some 95 }),
       (40, { ty := "lane_change_right", description := "merge", steering := some 180 })]⟩,
    ⟨"highway_cruise", 240 * scale, 360 * scale, 100,
      [(30, { ty := "slight_curve_right", description := "gentle curve right", steering := some 80 }),
       (70, { ty := "slight_curve_left", description := "gentle curve left", steering := some (-90) })]⟩,
    ⟨"overtaking", 360 * scale, 390 * scale, 120,
      [(5, { ty := "hard_acceleration", description := "overtake accel", throttle := some 90 }),
       (10, { ty := "lane_change_left", description := "to passing lane", steering := some (-200) }),
       (20, { ty := "lane_change_right", description := "back to lane", steering := some 190 })]⟩,
    ⟨"emergency_braking", 390 * scale, 420 * scale, 60,
      [(5, { ty := "emergency_brake", description := "emergency brake", brake := some 100 }),
       (8, { ty := "evasive_steering", description := "evasive steering", steering := some (-350) })]⟩,
    ⟨"highway_exit", 420 * scale, 480 * scale, 50,
      [(10, { ty := "deceleration", description := "slow for exit" }),
       (30, { ty := "exit_curve", description := "ramp curve", steering := some 300 })]⟩,
    ⟨"city_return", 480 * scale, 570 * scale, 40,
      [(20, { ty := "traffic_stop", description := "signal stop" }),
       (40, { ty := "pedestrian_stop", description := "pedestrian wait", brake := some 70 }),
       (60, { ty := "right_turn", description := "right turn", steering := some 380 })]⟩,
    ⟨"parking", 570 * scale, 600 * scale, 0,
      [(10, { ty := "parking_maneuver", description := "parking", steering := some (-500) }),
       (25, { ty := "full_stop", description := "full stop" })]⟩ ]

/-- `_get_current_phase`: first phase whose `[start,end)` window contains
`t`, else the last phase. -/
def get_current_phase (duration : ℕ) (t : ℚ) : DrivingPhase :=
  ((create_phases duration).find?
      (fun p => decide (p.start_sec ≤ t ∧ t < p.end_sec))).getD
    ((create_phases duration).reverse.headD ⟨"", 0, 0, 0, []⟩)

/-- The pre-computed event schedule of `generate_timeline`: key
`int((phase.start_sec + time_offset * scale) * 1000)` mapped to the event,
inserted in phase order (a Python dict, so on key collision the latest
insertion wins — see `schedLookup`). -/
def eventScheduleList (duration : ℕ) : List (ℤ × SimEvent) :=
  (create_phases duration).foldr
    (fun p acc =>
      p.events.map (fun oe =>
        (truncQ ((p.start_sec + oe.1 * ((duration : ℚ) / 600)) * 1000), oe.2)) ++ acc)
    []

/-- Dict lookup with Python's last-insertion-wins semantics. -/
def schedLookup (l : List (ℤ × SimEvent)) (ms : ℤ) : Option SimEvent :=
  (l.reverse.find? (fun ke => ke.1 = ms)).map (fun ke => ke.2)

/-- The state-mutation part of `_apply_event`. -/
def applyEventState (e : SimEvent) (v : VehicleState) : VehicleState :=
  if e.ty = "emergency_brake" ∨ e.ty = "pedestrian_stop" then
    { v with brake_pressure := e.brake.getD 100, brake_active := true, throttle_pct := 0 }
  else if e.ty = "traffic_stop" then
    { v with brake_pressure := 50, brake_active := true, throttle_pct := 0 }
  else if e.ty = "hard_acceleration" then
    { v with throttle_pct := e.throttle.getD 90, brake_pressure := 0, brake_active := false }
  else if e.ty = "right_turn" ∨ e.ty = "left_turn" ∨ e.ty = "lane_change_right" ∨
      e.ty = "lane_change_left" ∨ e.ty = "exit_curve" ∨ e.ty = "evasive_steering" ∨
      e.ty = "parking_maneuver" ∨ e.ty = "slight_curve_right" ∨
      e.ty = "slight_curve_left" then
    { v with steering_angle := e.steering.getD 0 }
  else if e.ty = "deceleration" then
    { v with throttle_pct := 10, brake_pressure := 20, brake_active := true }
  else if e.ty = "full_stop" then
    { v with brake_pressure := 30, brake_active := true, throttle_pct := 0 }
  else v

/-- One record of `self.events` (the event log). -/
structure EventRec where
  tsMs : ℤ
  ty : String
  description : String
  speed_kmh : ℚ
deriving DecidableEq

/-- `_apply_event`: mutate the state per event type, then append an event
record carrying the (post-mutation) speed. -/
def apply_event (e : SimEvent) (tsMs : ℤ) (v : VehicleState) (log : List EventRec) :
    VehicleState × List EventRec :=
  let v' := applyEventState e v
  (v', log ++ [⟨tsMs, e.ty, e.description, v'.speed_kmh⟩])

/-- `random.uniform(a, b)` drawing the `i`-th unit value of stream `u`. -/
def uniform (u : ℕ → ℚ) (i : ℕ) (a b : ℚ) : ℚ := a + (b - a) * u i

/-- First block of `_update_physics`: auto throttle/brake toward the target
speed (cruise-control behavior). -/
def cruise_control (u : ℕ → ℚ) (target : ℚ) (vi : VehicleState × ℕ) :
    VehicleState × ℕ :=
  let v := vi.1
  let i := vi.2
  let speed_diff := target - v.speed_kmh
  if v.brake_active = false ∧ v.throttle_pct < 50 then
    if speed_diff > 5 then
      ({ v with throttle_pct := min 60 (30 + speed_diff) }, i)
    else if speed_diff < -5 then
      let bp := min 30 (-speed_diff)
      ({ v with
          throttle_pct := max 0 10,
          brake_pressure := bp,
          brake_active := decide (bp > 10) }, i)
    else
      ({ v with throttle_pct := 25 + uniform u i (-5) 5 }, i + 1)
  else (v, i)

/-- `_update_physics` block: acceleration from throttle. -/
def accel_step (dt : ℚ) (v : VehicleState) : VehicleState :=
  if v.throttle_pct > 0 ∧ v.brake_active = false then
    { v with speed_kmh := min 140 (v.speed_kmh + (v.throttle_pct * (0.12 : ℚ)) * dt) }
  else v

/-- `_update_physics` block: deceleration from braking. -/
def brake_step (dt : ℚ) (v : VehicleState) : VehicleState :=
  if v.brake_active then
    { v with speed_kmh := max 0 (v.speed_kmh - (v.brake_pressure * (0.4 : ℚ)) * dt) }
  else v

/-- `_update_physics` block: natural deceleration. -/
def coast_step (dt : ℚ) (v : VehicleState) : VehicleState :=
  if v.throttle_pct = 0 ∧ v.brake_active = false then
    { v with speed_kmh := max 0 (v.speed_kmh - 3 * dt) }
  else v

/-- `_update_physics` block: rpm from speed and throttle (simulated
automatic transmission). -/
def rpm_step (u : ℕ → ℚ) (i1 : ℕ) (v : VehicleState) : VehicleState :=
  let gear : ℤ := min 6 (max 1 (truncQ (v.speed_kmh / 25) + 1))
  let base_rpm := 800 + (v.speed_kmh / (gear : ℚ)) * 80
  { v with
    rpm := min 6500 (max 800 (base_rpm + v.throttle_pct * 15 + uniform u i1 (-30) 30)) }

/-- `_update_physics` block: steering decays geometrically toward center
plus road noise. -/
def steer_step (u : ℕ → ℚ) (i1 : ℕ) (dt : ℚ) (v : VehicleState) : VehicleState :=
  { v with
    steering_angle := v.steering_angle * (1 - 2 * dt) + uniform u (i1 + 1) (-3) 3 }

/-- `_update_physics` block: brake release when not active. -/
def brake_release_step (dt : ℚ) (v : VehicleState) : VehicleState :=
  if v.brake_active = false then
    { v with brake_pressure := max 0 (v.brake_pressure - 100 * dt) }
  else v

/-- Remaining blocks of `_update_physics` after the cruise-control block,
in source order; consumes the two unconditional draws (rpm noise at the
current index, steering noise at the next). -/
def physics_rest (u : ℕ → ℚ) (dt : ℚ) (vi : VehicleState × ℕ) :
    VehicleState × ℕ :=
  (brake_release_step dt (steer_step u vi.2 dt (rpm_step u vi.2
    (coast_step dt (brake_step dt (accel_step dt vi.1))))), vi.2 + 2)

/-- `_update_physics(dt, target_speed)`: the cruise-control block followed
by the dynamics blocks; returns the new state and the updated draw index. -/
def update_physics (u : ℕ → ℚ) (dt target : ℚ) (vi : VehicleState × ℕ) :
    VehicleState × ℕ :=
  physics_rest u dt (cruise_control u target vi)

@[simp] theorem accel_step_throttle (dt : ℚ) (v : VehicleState) :
    (accel_step dt v).throttle_pct = v.throttle_pct := by
  unfold accel_step
  split_ifs <;> rfl

@[simp] theorem accel_step_ba (dt : ℚ) (v : VehicleState) :
    (accel_step dt v).brake_active = v.brake_active := by
  unfold accel_step
  split_ifs <;> rfl

@[simp] theorem accel_step_bp (dt : ℚ) (v : VehicleState) :
    (accel_step dt v).brake_pressure = v.brake_pressure := by
  unfold accel_step
  split_ifs <;> rfl

@[simp] theorem accel_step_steering (dt : ℚ) (v : VehicleState) :
    (accel_step dt v).steering_angle = v.steering_angle := by
  unfold accel_step
  split_ifs <;> rfl

@[simp] theorem brake_step_throttle (dt : ℚ) (v : VehicleState) :
    (brake_step dt v).throttle_pct = v.throttle_pct := by
  unfold brake_step
  split_ifs <;> rfl

@[simp] theorem brake_step_ba (dt : ℚ) (v : VehicleState) :
    (brake_step dt v).brake_active = v.brake_active := by
  unfold brake_step
  split_ifs <;> rfl

@[simp] theorem brake_step_bp (dt : ℚ) (v : VehicleState) :
    (brake_step dt v).brake_pressure = v.brake_pressure := by
  unfold brake_step
  split_ifs <;> rfl

@[simp] theorem brake_step_steering (dt : ℚ) (v : VehicleState) :
    (brake_step dt v).steering_angle = v.steering_angle := by
  unfold brake_step
  split_ifs <;> rfl

@[simp] theorem coast_step_throttle (dt : ℚ) (v : VehicleState) :
    (coast_step dt v).throttle_pct = v.throttle_pct := by
  unfold coast_step
  split_ifs <;> rfl

@[simp] theorem coast_step_ba (dt : ℚ) (v : VehicleState) :
    (coast_step dt v).brake_active = v.brake_active := by
  unfold coast_step
  split_ifs <;> rfl

@[simp] theorem coast_step_bp (dt : ℚ) (v : VehicleState) :
    (coast_step dt v).brake_pressure = v.brake_pressure := by
  unfold coast_step
  split_ifs <;> rfl

@[simp] theorem coast_step_steering (dt : ℚ) (v : VehicleState) :
    (coast_step dt v).steering_angle = v.steering_angle := by
  unfold coast_step
  split_ifs <;> rfl

@[simp] theorem rpm_step_speed (u : ℕ → ℚ) (i1 : ℕ) (v : VehicleState) :
    (rpm_step u i1 v).speed_kmh = v.speed_kmh := rfl

@[simp] theorem rpm_step_throttle (u : ℕ → ℚ) (i1 : ℕ) (v : VehicleState) :
    (rpm_step u i1 v).throttle_pct = v.throttle_pct := rfl

@[simp] theorem rpm_step_ba (u : ℕ → ℚ) (i1 : ℕ) (v : VehicleState) :
    (rpm_step u i1 v).brake_active = v.brake_active := rfl

@[simp] theorem rpm_step_bp (u : ℕ → ℚ) (i1 : ℕ) (v : VehicleState) :
    (rpm_step u i1 v).brake_pressure = v.brake_pressure := rfl

@[simp] theorem rpm_step_steering (u : ℕ → ℚ) (i1 : ℕ) (v : VehicleState) :
    (rpm_step u i1 v).steering_angle = v.steering_angle := rfl

@[simp] theorem steer_step_speed (u : ℕ → ℚ) (i1 : ℕ) (dt : ℚ) (v : VehicleState) :
    (steer_step u i1 dt v).speed_kmh = v.speed_kmh := rfl

@[simp] theorem steer_step_throttle (u : ℕ → ℚ) (i1 : ℕ) (dt : ℚ) (v : VehicleState) :
    (steer_step u i1 dt v).throttle_pct = v.throttle_pct := rfl

@[simp] theorem steer_step_ba (u : ℕ → ℚ) (i1 : ℕ) (dt : ℚ) (v : VehicleState) :
    (steer_step u i1 dt v).brake_active = v.brake_active := rfl

@[simp] theorem steer_step_bp (u : ℕ → ℚ) (i1 : ℕ) (dt : ℚ) (v : VehicleState) :
    (steer_step u i1 dt v).brake_pressure = v.brake_pressure := rfl

@[simp] theorem steer_step_steering (u : ℕ → ℚ) (i1 : ℕ) (dt : ℚ) (v : VehicleState) :
    (steer_step u i1 dt v).steering_angle
      = v.steering_angle * (1 - 2 * dt) + uniform u (i1 + 1) (-3) 3 := rfl

@[simp] theorem brake_release_step_speed (dt : ℚ) (v : VehicleState) :
    (brake_release_step dt v).speed_kmh = v.speed_kmh := by
  unfold brake_release_step
  split_ifs <;> rfl

@[simp] theorem brake_release_step_throttle (dt : ℚ) (v : VehicleState) :
    (brake_release_step dt v).throttle_pct = v.throttle_pct := by
  unfold brake_release_step
  split_ifs <;> rfl

@[simp] theorem brake_release_step_ba (dt : ℚ) (v : VehicleState) :
    (brake_release_step dt v).brake_active = v.brake_active := by
  unfold brake_release_step
  split_ifs <;> rfl

@[simp] theorem brake_release_step_steering (dt : ℚ) (v : VehicleState) :
    (brake_release_step dt v).steering_angle = v.steering_angle := by
  unfold brake_release_step
  split_ifs <;> rfl

/-- The mutable state of one `generate_timeline` run: vehicle state, event
log, the `active_event_duration` countdown, and the two PRNG cursors. -/
structure SimState where
  v : VehicleState
  events : List EventRec
  active : ℤ
  ui : ℕ
  ri : ℕ
deriving DecidableEq

def initSimState : SimState := ⟨initVehicleState, [], 0, 0, 0⟩

/-- One 10 ms tick of the `generate_timeline` loop at tick index `k`
(absolute offset `ms = 10*k`): event check and application, physics update,
then the recovery countdown with its relax-to-cruise reset. -/
def simStep (duration : ℕ) (start : ℤ) (u : ℕ → ℚ) (di : ℕ → ℤ) (k : ℕ)
    (st : SimState) : SimState :=
  let ms : ℤ := 10 * (k : ℤ)
  let time_sec : ℚ := (ms : ℚ) / 1000
  let phase := get_current_phase duration time_sec
  let st1 : SimState :=
    match schedLookup (eventScheduleList duration) ms with
    | some e =>
      if st.active ≤ 0 then
        let ve := apply_event e (start + ms) st.v st.events
        { st with v := ve.1, events := ve.2, active := di st.ri, ri := st.ri + 1 }
      else st
    | none => st
  let p := update_physics u ((10 : ℚ) / 1000) phase.target_speed (st1.v, st1.ui)
  let st2 : SimState := { st1 with v := p.1, ui := p.2 }
  if st2.active > 0 then
    let a := st2.active - 10
    if a ≤ 0 then
      { st2 with
        active := a,
        v := { st2.v with
                brake_pressure := 0,
                brake_active := false,
                throttle_pct := 30 } }
    else { st2 with active := a }
  else st2

/-- One timeline record: absolute timestamp (ms) and the state snapshot. -/
structure Sample where
  tsMs : ℤ
  v : VehicleState
deriving DecidableEq

/-- The body of the `generate_timeline` loop from tick `k` on, with `fuel`
ticks remaining: produces the appended samples and the final state. -/
def simLoop (duration : ℕ) (start : ℤ) (u : ℕ → ℚ) (di : ℕ → ℤ) :
    ℕ → ℕ → SimState → List Sample × SimState
  | _, 0, st => ([], st)
  | k, fuel + 1, st =>
    let st' := simStep duration start u di k st
    let rest := simLoop duration start u di (k + 1) fuel st'
    (⟨start + 10 * (k : ℤ), st'.v⟩ :: rest.1, rest.2)

/-- `generate_timeline(start_time)`: `duration*1000/10` ticks of 10 ms. -/
def generate_timeline (duration : ℕ) (start : ℤ) (u : ℕ → ℚ) (di : ℕ → ℤ) :
    List Sample × SimState :=
  simLoop duration start u di 0 (duration * 100) initSimState

/-! ## Frame emission (`state_to_can_frames`, `generate_can_data`) -/

structure CanFrame where
  tsMs : ℤ
  channel : String
  arb_id : ℕ
  dlc : ℕ
  data : Except Unit (List ℕ)
deriving DecidableEq

/-- `CAN_MESSAGES[arb_id]["period_ms"]` (id 0x100/0x101/0x102/0x103; other
ids never occur in the stream). -/
def CAN_PERIOD : ℕ → ℤ
  | 256 => 20
  | 257 => 10
  | 258 => 20
  | 259 => 50
  | _ => 0

/-- `state_to_can_frames`: the four frames of one state snapshot, in source
order.  A `struct.error` raised by an encoder is carried in the frame's
`data` field (in Python it would abort the whole run; the timing and
determinism claims below are insensitive to this difference). -/
def state_to_can_frames (tsMs : ℤ) (v : VehicleState) : List CanFrame :=
  [ ⟨tsMs, "can0", 256, 8, encode_vehicle_speed v.speed_kmh⟩,
    ⟨tsMs, "can0", 257, 8, encode_engine_data v.rpm v.throttle_pct⟩,
    ⟨tsMs, "can0", 258, 8, encode_brake_data v.brake_pressure v.brake_active⟩,
    ⟨tsMs, "can0", 259, 8, encode_steering_data v.steering_angle⟩ ]

/-- The per-tick emission filter of `generate_can_data`: emit each frame
whose message is due (`ts_ms - last_sent[arb_id] >= period_ms`), updating
`last_sent` as it goes. -/
def emitTick (frames : List CanFrame) (relMs : ℤ) (last : ℕ → ℤ) :
    List CanFrame × (ℕ → ℤ) :=
  match frames with
  | [] => ([], last)
  | f :: rest =>
    if CAN_PERIOD f.arb_id ≤ relMs - last f.arb_id then
      let r := emitTick rest relMs (Function.update last f.arb_id relMs)
      (f :: r.1, r.2)
    else emitTick rest relMs last

/-- The frame-selection loop of `generate_can_data` over the timeline;
`ts_ms` is the sample's offset from the run's start time. -/
def emitFrames (start : ℤ) : List Sample → (ℕ → ℤ) → List CanFrame
  | [], _ => []
  | s :: rest, last =>
    let r := emitTick (state_to_can_frames s.tsMs s.v) (s.tsMs - start) last
    r.1 ++ emitFrames start rest r.2

/-- `generate_can_data(vehicle_id, duration_seconds)`: the emitted frame
stream and the recorded event log.  `vehicle_id` only names the output
directory in the source and does not influence either result. -/
def generate_can_data (_vehicle_id : String) (duration : ℕ) (start : ℤ)
    (u : ℕ → ℚ) (di : ℕ → ℤ) : List CanFrame × List EventRec :=
  let tl := generate_timeline duration start u di
  (emitFrames start tl.1 (fun _ => 0), tl.2.events)

/-! ## Claims about the steering encoder's partiality (C10) -/

theorem truncQ_lt_zero_iff (q : ℚ) : truncQ q < 0 ↔ q ≤ -1 := by
  unfold truncQ
  split
  · rename_i h
    have h0 : (0 : ℤ) ≤ ⌊q⌋ := Int.floor_nonneg.mpr h
    constructor
    · intro hlt
      omega
    · intro hle
      linarith
  · rename_i h
    push_neg at h
    constructor
    · intro hlt
      have h1 : ⌈q⌉ ≤ -1 := by omega
      have h2 := Int.ceil_le.mp h1
      push_cast at h2
      linarith
    · intro hle
      have h1 : ⌈q⌉ ≤ -1 := Int.ceil_le.mpr (by push_cast; linarith)
      omega

theorem truncQ_gt_iff (q : ℚ) (n : ℕ) : (n : ℤ) < truncQ q ↔ (n : ℚ) + 1 ≤ q := by
  unfold truncQ
  split
  · rw [Int.lt_iff_add_one_le, Int.le_floor]
    push_cast
    exact Iff.rfl
  · rename_i h
    push_neg at h
    have hc : ⌈q⌉ ≤ 0 := Int.ceil_le.mpr (by push_cast; linarith)
    have hn : (0 : ℤ) ≤ (n : ℤ) := Int.ofNat_nonneg n
    constructor
    · intro hlt
      omega
    · intro hle
      have hn2 : (0 : ℚ) ≤ (n : ℚ) := Nat.cast_nonneg n
      linarith

/-- C10 counterexample: the angle −1080.05° is strictly below −1080°, yet
`encode_steering_data` does not raise: `int()` truncates the raw value −0.5
toward zero to 0, which packs fine.  The error branch is not reached for
every angle below −1080°, contrary to the claim. -/
theorem steering_below_range_still_encodes :
    (-21601 / 20 : ℚ) < -1080 ∧
    encode_steering_data (-21601 / 20) = .ok [0, 0, 0, 0, 0, 0, 0, 0] := by
  constructor
  · norm_num
  · simp only [encode_steering_data]
    rw [show truncQ (((-21601 / 20 : ℚ) + 1080) / (0.1 : ℚ)) = 0 by norm_num [truncQ]]
    decide

/-- C10 as amended: the steering encoder is partial, but with truncation's
boundaries: it raises exactly when angle ≤ −1080.1° (raw ≤ −1) or
angle ≥ 5473.6° (raw ≥ 65536); and the physics step applies no clamp to the
steering angle — the new angle is exactly geometric decay `·(1 − 2·dt)`
plus one additive noise draw, so nothing enforces the encoder's
precondition. -/
theorem steering_encoder_partial_and_unclamped :
    (∀ angle : ℚ, encode_steering_data angle = .error () ↔
      angle ≤ -(1080.1 : ℚ) ∨ (5473.6 : ℚ) ≤ angle) ∧
    (∀ (u : ℕ → ℚ) (i : ℕ) (dt target : ℚ) (v : VehicleState), ∃ j,
      ((update_physics u dt target (v, i)).1).steering_angle
        = v.steering_angle * (1 - 2 * dt) + uniform u j (-3) 3) := by
  constructor
  · intro angle
    set q : ℚ := (angle + 1080) / (0.1 : ℚ) with hqdef
    have hq : (q ≤ -1 ↔ angle ≤ -(1080.1 : ℚ)) := by
      rw [hqdef, div_le_iff₀ (by norm_num)]
      constructor <;> intro <;> linarith
    have hq2 : ((65535 : ℚ) + 1 ≤ q ↔ (5473.6 : ℚ) ≤ angle) := by
      rw [hqdef, le_div_iff₀ (by norm_num)]
      constructor <;> intro <;> linarith
    have hpack : encode_steering_data angle = .error () ↔
        ¬ (0 ≤ truncQ q ∧ truncQ q ≤ 65535) := by
      by_cases hcond : 0 ≤ truncQ q ∧ truncQ q ≤ 65535
      · have hok : encode_steering_data angle =
            .ok ([(truncQ q).toNat / 256, (truncQ q).toNat % 256] ++
              List.replicate 6 0) := by
          simp only [encode_steering_data, pack16BE, if_pos hcond]
          rfl
        rw [hok]
        simp [hcond]
      · have herr : encode_steering_data angle = .error () := by
          simp only [encode_steering_data, pack16BE, if_neg hcond]
          rfl
        rw [herr]
        simp [hcond]
    rw [hpack]
    have hg : 65535 < truncQ q ↔ (65535 : ℚ) + 1 ≤ q := by
      have hgg := truncQ_gt_iff q 65535
      push_cast at hgg ⊢
      exact hgg
    constructor
    · intro h
      have hsplit : truncQ q < 0 ∨ 65535 < truncQ q := by omega
      rcases hsplit with h1 | h1
      · exact Or.inl (hq.mp ((truncQ_lt_zero_iff q).mp h1))
      · exact Or.inr (hq2.mp (hg.mp h1))
    · intro h
      rcases h with h1 | h1
      · have h2 := (truncQ_lt_zero_iff q).mpr (hq.mpr h1)
        omega
      · have h2 := hg.mpr (hq2.mpr h1)
        omega
  · intro u i dt target v
    refine ⟨(cruise_control u target (v, i)).2 + 1, ?_⟩
    have hrest : ∀ (w : VehicleState) (j : ℕ),
        ((physics_rest u dt (w, j)).1).steering_angle
          = w.steering_angle * (1 - 2 * dt) + uniform u (j + 1) (-3) 3 := by
      intro w j
      simp [physics_rest]
    have hcruise : ((cruise_control u target (v, i)).1).steering_angle
        = v.steering_angle := by
      simp only [cruise_control]
      split_ifs <;> rfl
    calc ((update_physics u dt target (v, i)).1).steering_angle
        = ((cruise_control u target (v, i)).1).steering_angle * (1 - 2 * dt)
            + uniform u ((cruise_control u target (v, i)).2 + 1) (-3) 3 := by
          rw [update_physics]
          rw [show cruise_control u target (v, i)
              = ((cruise_control u target (v, i)).1,
                 (cruise_control u target (v, i)).2) from rfl]
          exact hrest _ _
      _ = v.steering_angle * (1 - 2 * dt)
            + uniform u ((cruise_control u target (v, i)).2 + 1) (-3) 3 := by
          rw [hcruise]

/-! ## The speed invariant (C9) -/

/-- The state ranges the data model declares: speed in [0,140] together
with the nonnegative throttle and brake pressure that the physics step
relies on. -/
def GoodState (v : VehicleState) : Prop :=
  0 ≤ v.speed_kmh ∧ v.speed_kmh ≤ 140 ∧ 0 ≤ v.throttle_pct ∧ 0 ≤ v.brake_pressure

theorem initVehicleState_good : GoodState initVehicleState := by
  refine ⟨?_, ?_, ?_, ?_⟩ <;> norm_num [initVehicleState, GoodState]

theorem cruise_control_good (u : ℕ → ℚ) (target : ℚ) (v : VehicleState) (i : ℕ)
    (hu : ∀ j, 0 ≤ u j ∧ u j ≤ 1) (hv : GoodState v) :
    GoodState ((cruise_control u target (v, i)).1) := by
  obtain ⟨hs0, hs1, ht0, hb0⟩ := hv
  have hui := (hu i).1
  simp only [cruise_control]
  split_ifs with h1 h2 h3
  · exact ⟨hs0, hs1, le_min (by norm_num) (by linarith), hb0⟩
  · refine ⟨hs0, hs1, le_max_left 0 10, le_min (by norm_num) (by linarith)⟩
  · refine ⟨hs0, hs1, ?_, hb0⟩
    simp only [uniform]
    nlinarith [hui]
  · exact ⟨hs0, hs1, ht0, hb0⟩

theorem accel_step_good (dt : ℚ) (v : VehicleState) (hdt : 0 ≤ dt)
    (hv : GoodState v) : GoodState (accel_step dt v) := by
  obtain ⟨hs0, hs1, ht0, hb0⟩ := hv
  unfold accel_step
  split_ifs with h
  · have hm1 : 0 ≤ (v.throttle_pct * (0.12 : ℚ)) * dt :=
      mul_nonneg (mul_nonneg ht0 (by norm_num)) hdt
    exact ⟨le_min (by norm_num) (by linarith), min_le_left _ _, ht0, hb0⟩
  · exact ⟨hs0, hs1, ht0, hb0⟩

theorem brake_step_good (dt : ℚ) (v : VehicleState) (hdt : 0 ≤ dt)
    (hv : GoodState v) : GoodState (brake_step dt v) := by
  obtain ⟨hs0, hs1, ht0, hb0⟩ := hv
  unfold brake_step
  split_ifs with h
  · have hm2 : 0 ≤ (v.brake_pressure * (0.4 : ℚ)) * dt :=
      mul_nonneg (mul_nonneg hb0 (by norm_num)) hdt
    exact ⟨le_max_left _ _, max_le (by norm_num) (by linarith), ht0, hb0⟩
  · exact ⟨hs0, hs1, ht0, hb0⟩

theorem coast_step_good (dt : ℚ) (v : VehicleState) (hdt : 0 ≤ dt)
    (hv : GoodState v) : GoodState (coast_step dt v) := by
  obtain ⟨hs0, hs1, ht0, hb0⟩ := hv
  unfold coast_step
  split_ifs with h
  · have hm3 : 0 ≤ 3 * dt := by linarith
    exact ⟨le_max_left _ _, max_le (by norm_num) (by linarith), ht0, hb0⟩
  · exact ⟨hs0, hs1, ht0, hb0⟩

theorem rpm_step_good (u : ℕ → ℚ) (i1 : ℕ) (v : VehicleState)
    (hv : GoodState v) : GoodState (rpm_step u i1 v) := by
  obtain ⟨hs0, hs1, ht0, hb0⟩ := hv
  exact ⟨hs0, hs1, ht0, hb0⟩

theorem steer_step_good (u : ℕ → ℚ) (i1 : ℕ) (dt : ℚ) (v : VehicleState)
    (hv : GoodState v) : GoodState (steer_step u i1 dt v) := by
  obtain ⟨hs0, hs1, ht0, hb0⟩ := hv
  exact ⟨hs0, hs1, ht0, hb0⟩

theorem brake_release_step_good (dt : ℚ) (v : VehicleState)
    (hv : GoodState v) : GoodState (brake_release_step dt v) := by
  obtain ⟨hs0, hs1, ht0, hb0⟩ := hv
  unfold brake_release_step
  split_ifs with h
  · exact ⟨hs0, hs1, ht0, le_max_left _ _⟩
  · exact ⟨hs0, hs1, ht0, hb0⟩

theorem physics_rest_good (u : ℕ → ℚ) (dt : ℚ) (w : VehicleState) (j : ℕ)
    (hdt : 0 ≤ dt) (hw : GoodState w) :
    GoodState ((physics_rest u dt (w, j)).1) :=
  brake_release_step_good dt _ (steer_step_good u j dt _ (rpm_step_good u j _
    (coast_step_good dt _ hdt (brake_step_good dt _ hdt
      (accel_step_good dt _ hdt hw)))))

theorem update_physics_good (u : ℕ → ℚ) (dt target : ℚ) (v : VehicleState)
    (i : ℕ) (hu : ∀ j, 0 ≤ u j ∧ u j ≤ 1) (hdt : 0 ≤ dt) (hv : GoodState v) :
    GoodState ((update_physics u dt target (v, i)).1) := by
  rw [update_physics,
    show cruise_control u target (v, i)
      = ((cruise_control u target (v, i)).1, (cruise_control u target (v, i)).2)
      from rfl]
  exact physics_rest_good u dt _ _ hdt (cruise_control_good u target v i hu hv)

/-- `_apply_event` never touches the speed. -/
theorem applyEventState_speed (e : SimEvent) (v : VehicleState) :
    (applyEventState e v).speed_kmh = v.speed_kmh := by
  simp only [applyEventState]
  split_ifs <;> rfl

theorem applyEventState_good (e : SimEvent) (v : VehicleState)
    (hbr : 0 ≤ e.brake.getD 100) (hth : 0 ≤ e.throttle.getD 90)
    (hv : GoodState v) : GoodState (applyEventState e v) := by
  obtain ⟨hs0, hs1, ht0, hb0⟩ := hv
  simp only [applyEventState]
  split_ifs <;> exact ⟨hs0, hs1, by first | linarith | norm_num,
    by first | linarith | norm_num⟩

theorem mem_foldr_append {α β : Type} (l : List α) (f : α → List β) (x : β) :
    x ∈ l.foldr (fun p acc => f p ++ acc) [] ↔ ∃ p ∈ l, x ∈ f p := by
  induction l with
  | nil => simp
  | cons a t ih => simp [List.mem_append, ih]

theorem schedLookup_mem (l : List (ℤ × SimEvent)) (ms : ℤ) (e : SimEvent)
    (h : schedLookup l ms = some e) : ∃ k, (k, e) ∈ l := by
  unfold schedLookup at h
  cases hf : l.reverse.find? (fun ke => ke.1 = ms) with
  | none =>
    rw [hf] at h
    cases h
  | some p =>
    rw [hf] at h
    have hmem := List.mem_of_find?_eq_some hf
    rw [List.mem_reverse] at hmem
    refine ⟨p.1, ?_⟩
    have hpe : p.2 = e := by
      simpa using h
    rw [← hpe]
    simpa using hmem

/-- Every event in the schedule carries nonnegative brake and throttle
parameters (needed for the invariant through `_apply_event`). -/
theorem sched_event_params (d : ℕ) (ms : ℤ) (e : SimEvent)
    (h : schedLookup (eventScheduleList d) ms = some e) :
    0 ≤ e.brake.getD 100 ∧ 0 ≤ e.throttle.getD 90 := by
  obtain ⟨k, hk⟩ := schedLookup_mem _ _ _ h
  unfold eventScheduleList at hk
  rw [mem_foldr_append] at hk
  obtain ⟨p, hp, hx⟩ := hk
  rw [List.mem_map] at hx
  obtain ⟨oe, hoe, heq⟩ := hx
  have he : e = oe.2 := congrArg Prod.snd heq.symm
  subst he
  clear heq h
  revert hoe
  revert oe
  fin_cases hp <;>
    (intro oe hoe
     fin_cases hoe <;> constructor <;> norm_num)

theorem simStep_good (duration : ℕ) (start : ℤ) (u : ℕ → ℚ) (di : ℕ → ℤ)
    (k : ℕ) (st : SimState) (hu : ∀ j, 0 ≤ u j ∧ u j ≤ 1)
    (hv : GoodState st.v) : GoodState (simStep duration start u di k st).v := by
  have hdt : (0 : ℚ) ≤ 10 / 1000 := by norm_num
  cases hsched : schedLookup (eventScheduleList duration) (10 * (k : ℤ)) with
  | none =>
    have hgood : GoodState ((update_physics u ((10 : ℚ) / 1000)
        (get_current_phase duration (((10 * (k : ℤ) : ℤ) : ℚ) / 1000)).target_speed
        (st.v, st.ui)).1) :=
      update_physics_good u _ _ _ _ hu hdt hv
    simp only [simStep, hsched]
    split_ifs with h1 h2
    · exact ⟨hgood.1, hgood.2.1, by norm_num, by norm_num⟩
    · exact hgood
    · exact hgood
  | some e =>
    obtain ⟨hbr, hth⟩ := sched_event_params duration _ _ hsched
    by_cases hact : st.active ≤ 0
    · have hgood : GoodState ((update_physics u ((10 : ℚ) / 1000)
          (get_current_phase duration (((10 * (k : ℤ) : ℤ) : ℚ) / 1000)).target_speed
          ((applyEventState e st.v), st.ui)).1) :=
        update_physics_good u _ _ _ _ hu hdt
          (applyEventState_good e st.v hbr hth hv)
      simp only [simStep, hsched, if_pos hact, apply_event]
      split_ifs with h1 h2
      · exact ⟨hgood.1, hgood.2.1, by norm_num, by norm_num⟩
      · exact hgood
      · exact hgood
    · have hgood : GoodState ((update_physics u ((10 : ℚ) / 1000)
          (get_current_phase duration (((10 * (k : ℤ) : ℤ) : ℚ) / 1000)).target_speed
          (st.v, st.ui)).1) :=
        update_physics_good u _ _ _ _ hu hdt hv
      simp only [simStep, hsched, if_neg hact]
      split_ifs with h1 h2
      · exact ⟨hgood.1, hgood.2.1, by norm_num, by norm_num⟩
      · exact hgood
      · exact hgood

theorem simLoop_speed (duration : ℕ) (start : ℤ) (u : ℕ → ℚ) (di : ℕ → ℤ)
    (hu : ∀ j, 0 ≤ u j ∧ u j ≤ 1) :
    ∀ (fuel k : ℕ) (st : SimState), GoodState st.v →
      ∀ s ∈ (simLoop duration start u di k fuel st).1,
        0 ≤ s.v.speed_kmh ∧ s.v.speed_kmh ≤ 140 := by
  intro fuel
  induction fuel with
  | zero =>
    intro k st hst s hs
    simp [simLoop] at hs
  | succ f ih =>
    intro k st hst s hs
    simp only [simLoop] at hs
    have hstep := simStep_good duration start u di k st hu hst
    rcases List.mem_cons.mp hs with heq | hmem
    · rw [heq]
      exact ⟨hstep.1, hstep.2.1⟩
    · exact ih (k + 1) _ hstep s hmem

/-- C9: the predicate `0 ≤ speed_kmh ≤ 140` holds of the initial state, is
preserved by every physics step (any `dt ≥ 0`, any target speed, any
in-range noise draws, any state within the data model's declared field
ranges), is untouched by every event application (which never writes the
speed), and consequently every sample of every generated timeline has
speed in [0, 140] km/h. -/
theorem speed_invariant_0_140 :
    (0 ≤ initVehicleState.speed_kmh ∧ initVehicleState.speed_kmh ≤ 140) ∧
    (∀ (u : ℕ → ℚ), (∀ j, 0 ≤ u j ∧ u j ≤ 1) → ∀ (dt target : ℚ), 0 ≤ dt →
      ∀ (v : VehicleState) (i : ℕ),
        0 ≤ v.speed_kmh → v.speed_kmh ≤ 140 →
        0 ≤ v.throttle_pct → 0 ≤ v.brake_pressure →
        0 ≤ ((update_physics u dt target (v, i)).1).speed_kmh ∧
          ((update_physics u dt target (v, i)).1).speed_kmh ≤ 140) ∧
    (∀ (e : SimEvent) (v : VehicleState),
      (applyEventState e v).speed_kmh = v.speed_kmh) ∧
    (∀ (duration : ℕ) (start : ℤ) (u : ℕ → ℚ) (di : ℕ → ℤ),
      (∀ j, 0 ≤ u j ∧ u j ≤ 1) →
      ∀ s ∈ (generate_timeline duration start u di).1,
        0 ≤ s.v.speed_kmh ∧ s.v.speed_kmh ≤ 140) := by
  refine ⟨⟨by norm_num [initVehicleState], by norm_num [initVehicleState]⟩,
    ?_, applyEventState_speed, ?_⟩
  · intro u hu dt target hdt v i h1 h2 h3 h4
    have hg := update_physics_good u dt target v i hu hdt ⟨h1, h2, h3, h4⟩
    exact ⟨hg.1, hg.2.1⟩
  · intro duration start u di hu s hs
    exact simLoop_speed duration start u di hu (duration * 100) 0 initSimState
      initVehicleState_good s hs

/-- Witness for `speed_invariant_0_140`: the physics step at the initial
state with zero draws, and the first sample of a concrete 1-second run. -/
theorem speed_invariant_0_140_witness :
    0 ≤ ((update_physics (fun _ => 0) ((10 : ℚ) / 1000) 40
        (initVehicleState, 0)).1).speed_kmh ∧
    ((update_physics (fun _ => 0) ((10 : ℚ) / 1000) 40
        (initVehicleState, 0)).1).speed_kmh ≤ 140 :=
  speed_invariant_0_140.2.1 (fun _ => 0) (fun j => by norm_num)
    ((10 : ℚ) / 1000) 40 (by norm_num) initVehicleState 0
    (by norm_num [initVehicleState]) (by norm_num [initVehicleState])
    (by norm_num [initVehicleState]) (by norm_num [initVehicleState])

/-! ## Period compliance of the emitted frame stream (C7) -/

/-- Per-tick behavior of the emission filter for one message id: the tick
emits exactly one frame of that id (carrying the sample's timestamp) when
the period has elapsed since `last_sent[id]`, none otherwise, and updates
`last_sent[id]` accordingly. -/
theorem emitTick_spec (ts rel : ℤ) (v : VehicleState) (last : ℕ → ℤ) (id : ℕ)
    (hid : id = 256 ∨ id = 257 ∨ id = 258 ∨ id = 259) :
    (((emitTick (state_to_can_frames ts v) rel last).1.filter
        (fun f => f.arb_id = id)).map (fun f => f.tsMs)
      = if CAN_PERIOD id ≤ rel - last id then [ts] else []) ∧
    ((emitTick (state_to_can_frames ts v) rel last).2 id
      = if CAN_PERIOD id ≤ rel - last id then rel else last id) := by
  rcases hid with rfl | rfl | rfl | rfl <;>
    (simp only [emitTick, state_to_can_frames, CAN_PERIOD]
     split_ifs <;> simp_all [Function.update])

/-- The emission loop, filtered to one message id, emits timestamps that
are chained at least one period apart, and its first emission is at least
one period after `last_sent[id]`. -/
theorem emitFrames_period_chain (start : ℤ) (id : ℕ)
    (hid : id = 256 ∨ id = 257 ∨ id = 258 ∨ id = 259) :
    ∀ (tl : List Sample) (last : ℕ → ℤ),
      List.Pairwise (fun a b : Sample => a.tsMs ≤ b.tsMs) tl →
      (∀ s ∈ tl, last id ≤ s.tsMs - start) →
      List.Chain' (fun x y : ℤ => x + CAN_PERIOD id ≤ y)
        (((emitFrames start tl last).filter (fun f => f.arb_id = id)).map
          (fun f => f.tsMs)) ∧
      (∀ z, ((((emitFrames start tl last).filter (fun f => f.arb_id = id)).map
          (fun f => f.tsMs)).head? = some z) → last id + CAN_PERIOD id ≤ z - start) := by
  intro tl
  induction tl with
  | nil =>
    intro last _ _
    refine ⟨by simp [emitFrames], ?_⟩
    intro z hz
    simp [emitFrames] at hz
  | cons s rest ih =>
    intro last hpw hlb
    obtain ⟨hhead, hpw'⟩ := List.pairwise_cons.mp hpw
    obtain ⟨hA, hlast⟩ := emitTick_spec s.tsMs (s.tsMs - start) s.v last id hid
    have hlb' : ∀ s' ∈ rest,
        (emitTick (state_to_can_frames s.tsMs s.v) (s.tsMs - start) last).2 id
          ≤ s'.tsMs - start := by
      intro s' hs'
      rw [hlast]
      split_ifs
      · have := hhead s' hs'
        omega
      · exact hlb s' (List.mem_cons_of_mem _ hs')
    obtain ⟨ihc, ihh⟩ := ih
      ((emitTick (state_to_can_frames s.tsMs s.v) (s.tsMs - start) last).2) hpw' hlb'
    have hsplit : ((emitFrames start (s :: rest) last).filter
          (fun f => f.arb_id = id)).map (fun f => f.tsMs)
        = (((emitTick (state_to_can_frames s.tsMs s.v) (s.tsMs - start) last).1.filter
            (fun f => f.arb_id = id)).map (fun f => f.tsMs))
          ++ (((emitFrames start rest
              ((emitTick (state_to_can_frames s.tsMs s.v) (s.tsMs - start) last).2)).filter
            (fun f => f.arb_id = id)).map (fun f => f.tsMs)) := by
      simp [emitFrames, List.filter_append]
    rw [hsplit, hA]
    by_cases hcond : CAN_PERIOD id ≤ s.tsMs - start - last id
    · rw [if_pos hcond]
      rw [if_pos hcond] at hlast
      constructor
      · rw [List.chain'_append]
        refine ⟨by simp, ihc, ?_⟩
        intro x hx y hy
        simp at hx
        subst hx
        have := ihh y hy
        rw [hlast] at this
        omega
      · intro z hz
        simp at hz
        subst hz
        omega
    · rw [if_neg hcond]
      rw [if_neg hcond] at hlast
      simp only [List.nil_append]
      refine ⟨ihc, ?_⟩
      intro z hz
      have := ihh z hz
      rw [hlast] at this
      exact this

theorem simLoop_ts_lb (d : ℕ) (s : ℤ) (u : ℕ → ℚ) (di : ℕ → ℤ) :
    ∀ (fuel k : ℕ) (st : SimState), ∀ sm ∈ (simLoop d s u di k fuel st).1,
      s + 10 * (k : ℤ) ≤ sm.tsMs := by
  intro fuel
  induction fuel with
  | zero =>
    intro k st sm hm
    simp [simLoop] at hm
  | succ f ih =>
    intro k st sm hm
    simp only [simLoop] at hm
    rcases List.mem_cons.mp hm with heq | hm'
    · rw [heq]
    · have := ih (k + 1) _ sm hm'
      push_cast at this ⊢
      linarith

theorem simLoop_ts_pairwise (d : ℕ) (s : ℤ) (u : ℕ → ℚ) (di : ℕ → ℤ) :
    ∀ (fuel k : ℕ) (st : SimState),
      List.Pairwise (fun a b : Sample => a.tsMs ≤ b.tsMs)
        (simLoop d s u di k fuel st).1 := by
  intro fuel
  induction fuel with
  | zero =>
    intro k st
    simp [simLoop]
  | succ f ih =>
    intro k st
    simp only [simLoop]
    refine List.pairwise_cons.mpr ⟨?_, ih (k + 1) _⟩
    intro b hb
    have := simLoop_ts_lb d s u di f (k + 1) _ b hb
    push_cast at this ⊢
    linarith

/-- C7: in the stream produced by `generate_can_data`, any two consecutive
frames of the same message are at least the message's declared period
apart in tick time — 20 ms for 0x100, 10 ms for 0x101, 20 ms for 0x102,
50 ms for 0x103 — for every duration, start time and seed. -/
theorem period_compliance (vid : String) (duration : ℕ) (start : ℤ)
    (u : ℕ → ℚ) (di : ℕ → ℤ) :
    List.Chain' (fun a b : CanFrame => a.tsMs + 20 ≤ b.tsMs)
      (((generate_can_data vid duration start u di).1).filter
        (fun f => f.arb_id = 256)) ∧
    List.Chain' (fun a b : CanFrame => a.tsMs + 10 ≤ b.tsMs)
      (((generate_can_data vid duration start u di).1).filter
        (fun f => f.arb_id = 257)) ∧
    List.Chain' (fun a b : CanFrame => a.tsMs + 20 ≤ b.tsMs)
      (((generate_can_data vid duration start u di).1).filter
        (fun f => f.arb_id = 258)) ∧
    List.Chain' (fun a b : CanFrame => a.tsMs + 50 ≤ b.tsMs)
      (((generate_can_data vid duration start u di).1).filter
        (fun f => f.arb_id = 259)) := by
  have key : ∀ id : ℕ, (id = 256 ∨ id = 257 ∨ id = 258 ∨ id = 259) →
      List.Chain' (fun a b : CanFrame => a.tsMs + CAN_PERIOD id ≤ b.tsMs)
        (((generate_can_data vid duration start u di).1).filter
          (fun f => f.arb_id = id)) := by
    intro id hid
    have hpw := simLoop_ts_pairwise duration start u di (duration * 100) 0 initSimState
    have hlb : ∀ sm ∈ (simLoop duration start u di 0 (duration * 100) initSimState).1,
        (fun _ => (0 : ℤ)) id ≤ sm.tsMs - start := by
      intro sm hm
      have := simLoop_ts_lb duration start u di (duration * 100) 0 initSimState sm hm
      simp at this ⊢
      omega
    obtain ⟨hc, -⟩ := emitFrames_period_chain start id hid
      (simLoop duration start u di 0 (duration * 100) initSimState).1
      (fun _ => 0) hpw hlb
    rw [List.chain'_map] at hc
    exact hc
  exact ⟨key 256 (by norm_num), key 257 (by norm_num), key 258 (by norm_num),
    key 259 (by norm_num)⟩

/-! ## Determinism across runs (C8) -/

/-- One tick of the simulation is insensitive to the run's start time in
every component except the event-log timestamps. -/
theorem simStep_shift (d : ℕ) (s1 s2 : ℤ) (u : ℕ → ℚ) (di : ℕ → ℤ) (k : ℕ)
    (st1 st2 : SimState) (hv : st1.v = st2.v) (ha : st1.active = st2.active)
    (hui : st1.ui = st2.ui) (hri : st1.ri = st2.ri) :
    (simStep d s1 u di k st1).v = (simStep d s2 u di k st2).v ∧
    (simStep d s1 u di k st1).active = (simStep d s2 u di k st2).active ∧
    (simStep d s1 u di k st1).ui = (simStep d s2 u di k st2).ui ∧
    (simStep d s1 u di k st1).ri = (simStep d s2 u di k st2).ri := by
  obtain ⟨v1, ev1, a1, ui1, ri1⟩ := st1
  obtain ⟨v2, ev2, a2, ui2, ri2⟩ := st2
  simp only at hv ha hui hri
  subst hv
  subst ha
  subst hui
  subst hri
  cases hsched : schedLookup (eventScheduleList d) (10 * (k : ℤ)) with
  | none =>
    simp only [simStep, hsched]
    split_ifs <;> simp
  | some e =>
    simp only [simStep, hsched, apply_event]
    split_ifs <;> simp

/-- The sample stream, viewed relative to the start time, and the final
vehicle/countdown/cursor state are identical across start times. -/
theorem simLoop_shift (d : ℕ) (s1 s2 : ℤ) (u : ℕ → ℚ) (di : ℕ → ℤ) :
    ∀ (fuel k : ℕ) (st1 st2 : SimState), st1.v = st2.v →
      st1.active = st2.active → st1.ui = st2.ui → st1.ri = st2.ri →
      ((simLoop d s1 u di k fuel st1).1.map (fun sm => (sm.tsMs - s1, sm.v))
        = (simLoop d s2 u di k fuel st2).1.map (fun sm => (sm.tsMs - s2, sm.v))) ∧
      (simLoop d s1 u di k fuel st1).2.v = (simLoop d s2 u di k fuel st2).2.v ∧
      (simLoop d s1 u di k fuel st1).2.active
        = (simLoop d s2 u di k fuel st2).2.active ∧
      (simLoop d s1 u di k fuel st1).2.ui = (simLoop d s2 u di k fuel st2).2.ui ∧
      (simLoop d s1 u di k fuel st1).2.ri = (simLoop d s2 u di k fuel st2).2.ri := by
  intro fuel
  induction fuel with
  | zero =>
    intro k st1 st2 hv ha hui hri
    exact ⟨rfl, hv, ha, hui, hri⟩
  | succ f ih =>
    intro k st1 st2 hv ha hui hri
    obtain ⟨hv', ha', hui', hri'⟩ := simStep_shift d s1 s2 u di k st1 st2 hv ha hui hri
    obtain ⟨hmap, hfin⟩ := ih (k + 1) _ _ hv' ha' hui' hri'
    simp only [simLoop, List.map_cons]
    refine ⟨?_, hfin⟩
    rw [hmap, hv']
    congr 2
    omega

/-- One tick of the emission filter, at equal relative time and equal
vehicle state, emits frames identical up to the start-time shift, and
leaves identical `last_sent` tables. -/
theorem emitTick_shift (rel ts1 ts2 s1 s2 : ℤ) (v : VehicleState) (last : ℕ → ℤ)
    (h1 : ts1 - s1 = rel) (h2 : ts2 - s2 = rel) :
    ((emitTick (state_to_can_frames ts1 v) rel last).1.map
        (fun f => (f.tsMs - s1, f.channel, f.arb_id, f.dlc, f.data))
      = (emitTick (state_to_can_frames ts2 v) rel last).1.map
        (fun f => (f.tsMs - s2, f.channel, f.arb_id, f.dlc, f.data))) ∧
    (emitTick (state_to_can_frames ts1 v) rel last).2
      = (emitTick (state_to_can_frames ts2 v) rel last).2 := by
  simp only [emitTick, state_to_can_frames]
  split_ifs <;> simp [h1, h2]

/-- The emitted frame streams of two runs agree up to the start-time shift
whenever their (relative-time, state) sample streams agree. -/
theorem emitFrames_shift (s1 s2 : ℤ) :
    ∀ (tl1 tl2 : List Sample) (last : ℕ → ℤ),
      (tl1.map (fun sm => (sm.tsMs - s1, sm.v))
        = tl2.map (fun sm => (sm.tsMs - s2, sm.v))) →
      (emitFrames s1 tl1 last).map
          (fun f => (f.tsMs - s1, f.channel, f.arb_id, f.dlc, f.data))
        = (emitFrames s2 tl2 last).map
          (fun f => (f.tsMs - s2, f.channel, f.arb_id, f.dlc, f.data)) := by
  intro tl1
  induction tl1 with
  | nil =>
    intro tl2 last h
    cases tl2 with
    | nil => simp [emitFrames]
    | cons b bs => simp at h
  | cons a as ih =>
    intro tl2 last h
    cases tl2 with
    | nil => simp at h
    | cons b bs =>
      simp only [List.map_cons, List.cons.injEq] at h
      obtain ⟨hhead, htail⟩ := h
      have hts : a.tsMs - s1 = b.tsMs - s2 := congrArg Prod.fst hhead
      have hv : a.v = b.v := congrArg Prod.snd hhead
      obtain ⟨hmap, hlast⟩ :=
        emitTick_shift (a.tsMs - s1) a.tsMs b.tsMs s1 s2 a.v last rfl hts.symm
      simp only [emitFrames, List.map_append]
      rw [← hv, ← hts, hmap, hlast]
      congr 1
      exact ih bs _ htail

/-- C8 as amended: with the PRNG stream fixed, two runs of
`generate_can_data` with the same duration agree frame-by-frame on channel,
identifier, length and payload bytes, and their timestamps agree after
subtracting each run's own start time; full byte-identity additionally
requires the same start time, which the source takes from the wall clock
(`datetime.now()`), and `vehicle_id` has no influence at all. -/
theorem determinism_modulo_start_shift (vid1 vid2 : String) (duration : ℕ)
    (s1 s2 : ℤ) (u : ℕ → ℚ) (di : ℕ → ℤ) :
    ((generate_can_data vid1 duration s1 u di).1).map
        (fun f => (f.tsMs - s1, f.channel, f.arb_id, f.dlc, f.data))
      = ((generate_can_data vid2 duration s2 u di).1).map
        (fun f => (f.tsMs - s2, f.channel, f.arb_id, f.dlc, f.data)) := by
  refine emitFrames_shift s1 s2 _ _ _ ?_
  exact (simLoop_shift duration s1 s2 u di (duration * 100) 0 initSimState
    initSimState rfl rfl rfl rfl).1

theorem simLoop_succ (d : ℕ) (s : ℤ) (u : ℕ → ℚ) (di : ℕ → ℤ) (k f : ℕ)
    (st : SimState) :
    simLoop d s u di k (f + 1) st
      = (⟨s + 10 * (k : ℤ), (simStep d s u di k st).v⟩ ::
          (simLoop d s u di (k + 1) f (simStep d s u di k st)).1,
         (simLoop d s u di (k + 1) f (simStep d s u di k st)).2) := rfl

theorem emitFrames_cons (s : ℤ) (a : Sample) (rest : List Sample)
    (last : ℕ → ℤ) :
    emitFrames s (a :: rest) last
      = (emitTick (state_to_can_frames a.tsMs a.v) (a.tsMs - s) last).1
        ++ emitFrames s rest
          (emitTick (state_to_can_frames a.tsMs a.v) (a.tsMs - s) last).2 := rfl

/-- At relative time 0 no message is due (`0 - 0 < period` for all four). -/
theorem emitTick_rel0 (ts : ℤ) (v : VehicleState) :
    emitTick (state_to_can_frames ts v) 0 (fun _ => 0) = ([], fun _ => 0) := by
  simp [emitTick, state_to_can_frames, CAN_PERIOD]

/-- At relative time 10 only EngineData (period 10 ms) is due. -/
theorem emitTick_rel10 (ts : ℤ) (v : VehicleState) :
    emitTick (state_to_can_frames ts v) 10 (fun _ => 0)
      = ([⟨ts, "can0", 257, 8, encode_engine_data v.rpm v.throttle_pct⟩],
         Function.update (fun _ => 0) 257 10) := by
  simp [emitTick, state_to_can_frames, CAN_PERIOD, Function.update]

/-- A 600-second run's first emitted frame carries the absolute timestamp
`start_time + 10 ms`. -/
theorem generate_can_data_head (vid : String) (start : ℤ) (u : ℕ → ℚ)
    (di : ℕ → ℤ) :
    ∃ f rest, (generate_can_data vid 600 start u di).1 = f :: rest ∧
      f.tsMs = start + 10 := by
  have hr0 : start + 10 * ((0 : ℕ) : ℤ) - start = 0 := by push_cast; ring
  have hr1 : start + 10 * (((0 + 1) : ℕ) : ℤ) - start = 10 := by push_cast; ring
  simp only [generate_can_data, generate_timeline]
  rw [simLoop_succ, simLoop_succ]
  dsimp only
  rw [emitFrames_cons]
  dsimp only
  rw [hr0, emitTick_rel0]
  dsimp only
  rw [emitFrames_cons]
  dsimp only
  rw [hr1, emitTick_rel10]
  dsimp only
  simp only [List.nil_append, List.singleton_append]
  refine ⟨_, _, rfl, ?_⟩
  push_cast
  ring

/-- C8 counterexample: with the seed (draw streams) and `(duration,
vehicle_id)` fixed, two runs whose `datetime.now()` start times differ
produce frame streams that are not byte-identical: already their first
frames carry different absolute timestamps. -/
theorem byte_identity_fails_across_start_times :
    (generate_can_data "VH001" 600 0 (fun _ => 0) (fun _ => 2000)).1
      ≠ (generate_can_data "VH001" 600 1000000 (fun _ => 0) (fun _ => 2000)).1 := by
  obtain ⟨f1, r1, he1, ht1⟩ :=
    generate_can_data_head "VH001" 0 (fun _ => 0) (fun _ => 2000)
  obtain ⟨f2, r2, he2, ht2⟩ :=
    generate_can_data_head "VH001" 1000000 (fun _ => 0) (fun _ => 2000)
  intro h
  rw [he1, he2] at h
  injection h with h1 h2
  have hts := congrArg CanFrame.tsMs h1
  rw [ht1, ht2] at hts
  norm_num at hts

/-! ## The event log of the 600 s scenario (C6)

The firing of scheduled events depends only on the schedule and on the
`active_event_duration` countdown, never on the physics state; the lemmas
below isolate that countdown's dynamics. -/

/-- The per-tick update of `active_event_duration` in the recovery block:
decrement by the 10 ms tick while positive, unchanged otherwise. -/
def recDec (a : ℤ) : ℤ := if a > 0 then a - 10 else a

theorem recDec_le (a : ℤ) : recDec a ≤ a := by
  unfold recDec
  split_ifs <;> omega

/-- A tick with no scheduled event leaves the log and draw cursor alone and
decays the countdown. -/
theorem simStep_proj_none (d : ℕ) (s : ℤ) (u : ℕ → ℚ) (di : ℕ → ℤ) (k : ℕ)
    (st : SimState)
    (h : schedLookup (eventScheduleList d) (10 * (k : ℤ)) = none) :
    (simStep d s u di k st).events = st.events ∧
    (simStep d s u di k st).active = recDec st.active ∧
    (simStep d s u di k st).ri = st.ri := by
  simp only [simStep, h]
  unfold recDec
  split_ifs <;> exact ⟨rfl, rfl, rfl⟩

/-- A tick whose scheduled event fires (countdown expired) appends exactly
one record, restarts the countdown from the next `randint` draw, and
advances the draw cursor. -/
theorem simStep_proj_fire (d : ℕ) (s : ℤ) (u : ℕ → ℚ) (di : ℕ → ℤ) (k : ℕ)
    (st : SimState) (e : SimEvent)
    (h : schedLookup (eventScheduleList d) (10 * (k : ℤ)) = some e)
    (ha : st.active ≤ 0) :
    (simStep d s u di k st).events
      = st.events ++ [⟨s + 10 * (k : ℤ), e.ty, e.description,
          (applyEventState e st.v).speed_kmh⟩] ∧
    (simStep d s u di k st).active = recDec (di st.ri) ∧
    (simStep d s u di k st).ri = st.ri + 1 := by
  simp only [simStep, h, if_pos ha, apply_event]
  unfold recDec
  split_ifs <;> exact ⟨rfl, rfl, rfl⟩

/-- A tick whose scheduled event is blocked by an active recovery window
drops the event: log and cursor unchanged, countdown decays. -/
theorem simStep_proj_blocked (d : ℕ) (s : ℤ) (u : ℕ → ℚ) (di : ℕ → ℤ) (k : ℕ)
    (st : SimState) (e : SimEvent)
    (h : schedLookup (eventScheduleList d) (10 * (k : ℤ)) = some e)
    (ha : ¬ st.active ≤ 0) :
    (simStep d s u di k st).events = st.events ∧
    (simStep d s u di k st).active = recDec st.active ∧
    (simStep d s u di k st).ri = st.ri := by
  simp only [simStep, h, if_neg ha]
  unfold recDec
  split_ifs <;> exact ⟨rfl, rfl, rfl⟩

/-- The simulation state after the first `n` ticks of a run. -/
def simRun (d : ℕ) (s : ℤ) (u : ℕ → ℚ) (di : ℕ → ℤ) (n : ℕ) : SimState :=
  (simLoop d s u di 0 n initSimState).2

theorem simLoop_snoc (d : ℕ) (s : ℤ) (u : ℕ → ℚ) (di : ℕ → ℤ) :
    ∀ (f k : ℕ) (st : SimState),
      (simLoop d s u di k (f + 1) st).2
        = simStep d s u di (k + f) ((simLoop d s u di k f st).2) := by
  intro f
  induction f with
  | zero =>
    intro k st
    rfl
  | succ f ih =>
    intro k st
    show (simLoop d s u di (k + 1) (f + 1) (simStep d s u di k st)).2 = _
    rw [ih (k + 1)]
    rw [show (k + 1) + f = k + (f + 1) by omega]
    rfl

theorem simRun_succ (d : ℕ) (s : ℤ) (u : ℕ → ℚ) (di : ℕ → ℤ) (n : ℕ) :
    simRun d s u di (n + 1) = simStep d s u di n (simRun d s u di n) := by
  unfold simRun
  rw [simLoop_snoc]
  rw [show 0 + n = n by omega]

theorem simRun_zero (d : ℕ) (s : ℤ) (u : ℕ → ℚ) (di : ℕ → ℤ) :
    simRun d s u di 0 = initSimState := rfl

/-- The countdown never exceeds the largest `randint` draw. -/
theorem simRun_active_ub (d : ℕ) (s : ℤ) (u : ℕ → ℚ) (di : ℕ → ℤ) (D : ℤ)
    (hD : 0 ≤ D) (hdi : ∀ i, di i ≤ D) :
    ∀ n, (simRun d s u di n).active ≤ D := by
  intro n
  induction n with
  | zero =>
    rw [simRun_zero]
    exact hD
  | succ n ih =>
    rw [simRun_succ]
    cases hsched : schedLookup (eventScheduleList d) (10 * (n : ℤ)) with
    | none =>
      rw [(simStep_proj_none d s u di n _ hsched).2.1]
      have := recDec_le (simRun d s u di n).active
      omega
    | some e =>
      by_cases ha : (simRun d s u di n).active ≤ 0
      · rw [(simStep_proj_fire d s u di n _ e hsched ha).2.1]
        have h1 := recDec_le (di (simRun d s u di n).ri)
        have h2 := hdi (simRun d s u di n).ri
        omega
      · rw [(simStep_proj_blocked d s u di n _ e hsched ha).2.1]
        have := recDec_le (simRun d s u di n).active
        omega

/-- Over an interval with no scheduled events the countdown decays by 10
per tick until it is spent. -/
theorem simRun_active_decay_ub (d : ℕ) (s : ℤ) (u : ℕ → ℚ) (di : ℕ → ℤ)
    (a : ℕ) (C : ℤ) :
    ∀ m, (∀ j, a ≤ j → j < a + m →
        schedLookup (eventScheduleList d) (10 * (j : ℤ)) = none) →
      (simRun d s u di a).active ≤ C →
      (simRun d s u di (a + m)).active ≤ max 0 (C - 10 * (m : ℤ)) := by
  intro m
  induction m with
  | zero =>
    intro _ hC
    simp only [Nat.add_zero]
    have := le_max_right (0 : ℤ) (C - 10 * ((0 : ℕ) : ℤ))
    push_cast at this ⊢
    omega
  | succ m ih =>
    intro hno hC
    have ihm := ih (fun j hj hj2 => hno j hj (by omega)) hC
    have hstep := (simStep_proj_none d s u di (a + m) (simRun d s u di (a + m))
      (hno (a + m) (by omega) (by omega))).2.1
    rw [show a + (m + 1) = (a + m) + 1 by omega, simRun_succ, hstep]
    rw [le_max_iff] at ihm ⊢
    unfold recDec
    push_cast at ihm ⊢
    split_ifs <;> omega

/-- Over an interval with no scheduled events the countdown loses at most
10 per tick. -/
theorem simRun_active_decay_lb (d : ℕ) (s : ℤ) (u : ℕ → ℚ) (di : ℕ → ℤ)
    (a : ℕ) :
    ∀ m, (∀ j, a ≤ j → j < a + m →
        schedLookup (eventScheduleList d) (10 * (j : ℤ)) = none) →
      (simRun d s u di a).active - 10 * (m : ℤ)
        ≤ (simRun d s u di (a + m)).active := by
  intro m
  induction m with
  | zero =>
    intro _
    simp only [Nat.add_zero]
    push_cast
    omega
  | succ m ih =>
    intro hno
    have ihm := ih (fun j hj hj2 => hno j hj (by omega))
    have hstep := (simStep_proj_none d s u di (a + m) (simRun d s u di (a + m))
      (hno (a + m) (by omega) (by omega))).2.1
    rw [show a + (m + 1) = (a + m) + 1 by omega, simRun_succ, hstep]
    unfold recDec
    push_cast at ihm ⊢
    split_ifs <;> omega

/-- The event log only grows. -/
theorem simRun_events_mono (d : ℕ) (s : ℤ) (u : ℕ → ℚ) (di : ℕ → ℤ) :
    ∀ n m, n ≤ m → ∀ r ∈ (simRun d s u di n).events,
      r ∈ (simRun d s u di m).events := by
  have hstep : ∀ n r, r ∈ (simRun d s u di n).events →
      r ∈ (simRun d s u di (n + 1)).events := by
    intro n r hr
    rw [simRun_succ]
    cases hsched : schedLookup (eventScheduleList d) (10 * (n : ℤ)) with
    | none =>
      rw [(simStep_proj_none d s u di n _ hsched).1]
      exact hr
    | some e =>
      by_cases ha : (simRun d s u di n).active ≤ 0
      · rw [(simStep_proj_fire d s u di n _ e hsched ha).1]
        exact List.mem_append_left _ hr
      · rw [(simStep_proj_blocked d s u di n _ e hsched ha).1]
        exact hr
  intro n m
  induction m with
  | zero =>
    intro hnm r hr
    have : n = 0 := by omega
    rw [← this]
    exact hr
  | succ m ih =>
    intro hnm r hr
    rcases (by omega : n = m + 1 ∨ n ≤ m) with heq | hle
    · rw [← heq]
      exact hr
    · exact hstep m r (ih hle r hr)

/-- Every record of the event log stems from a scheduled event that fired
at its own tick, with the countdown expired there. -/
theorem simRun_events_mem (d : ℕ) (s : ℤ) (u : ℕ → ℚ) (di : ℕ → ℤ) :
    ∀ n, ∀ r ∈ (simRun d s u di n).events,
      ∃ (k : ℕ) (e : SimEvent), k < n ∧
        schedLookup (eventScheduleList d) (10 * (k : ℤ)) = some e ∧
        r.tsMs = s + 10 * (k : ℤ) ∧ r.ty = e.ty ∧
        (simRun d s u di k).active ≤ 0 := by
  intro n
  induction n with
  | zero =>
    intro r hr
    simp [simRun_zero, initSimState] at hr
  | succ n ih =>
    intro r hr
    rw [simRun_succ] at hr
    cases hsched : schedLookup (eventScheduleList d) (10 * (n : ℤ)) with
    | none =>
      rw [(simStep_proj_none d s u di n _ hsched).1] at hr
      obtain ⟨k, e, hk, h2, h3, h4, h5⟩ := ih r hr
      exact ⟨k, e, by omega, h2, h3, h4, h5⟩
    | some e =>
      by_cases ha : (simRun d s u di n).active ≤ 0
      · rw [(simStep_proj_fire d s u di n _ e hsched ha).1] at hr
        rcases List.mem_append.mp hr with hold | hnew
        · obtain ⟨k, e', hk, h2, h3, h4, h5⟩ := ih r hold
          exact ⟨k, e', by omega, h2, h3, h4, h5⟩
        · rw [List.mem_singleton] at hnew
          rw [hnew]
          exact ⟨n, e, by omega, hsched, rfl, rfl, ha⟩
      · rw [(simStep_proj_blocked d s u di n _ e hsched ha).1] at hr
        obtain ⟨k, e', hk, h2, h3, h4, h5⟩ := ih r hr
        exact ⟨k, e', by omega, h2, h3, h4, h5⟩

/-- The concrete event schedule of the 600 s run (scale = 1, keys
`int((phase.start_sec + offset) * 1000)` in ms). -/
def sched600 : List (ℤ × SimEvent) :=
  [ (5000, { ty := "start_engine", description := "engine start" }),
    (80000, { ty := "traffic_stop", description := "signal stop" }),
    (110000, { ty := "right_turn", description := "right turn", steering := some 450 }),
    (140000, { ty := "traffic_stop", description := "signal stop" }),
    (160000, { ty := "left_turn", description := "left turn", steering := some (-400) }),
    (190000, { ty := "hard_acceleration", description := "merge accel", throttle := some 95 }),
    (220000, { ty := "lane_change_right", description := "merge", steering := some 180 }),
    (270000, { ty := "slight_curve_right", description := "gentle curve right", steering := some 80 }),
    (310000, { ty := "slight_curve_left", description := "gentle curve left", steering := some (-90) }),
    (365000, { ty := "hard_acceleration", description := "overtake accel", throttle := some 90 }),
    (370000, { ty := "lane_change_left", description := "to passing lane", steering := some (-200) }),
    (380000, { ty := "lane_change_right", description := "back to lane", steering := some 190 }),
    (395000, { ty := "emergency_brake", description := "emergency brake", brake := some 100 }),
    (398000, { ty := "evasive_steering", description := "evasive steering", steering := some (-350) }),
    (430000, { ty := "deceleration", description := "slow for exit" }),
    (450000, { ty := "exit_curve", description := "ramp curve", steering := some 300 }),
    (500000, { ty := "traffic_stop", description := "signal stop" }),
    (520000, { ty := "pedestrian_stop", description := "pedestrian wait", brake := some 70 }),
    (540000, { ty := "right_turn", description := "right turn", steering := some 380 }),
    (580000, { ty := "parking_maneuver", description := "parking", steering := some (-500) }),
    (595000, { ty := "full_stop", description := "full stop" }) ]

theorem eventScheduleList_600 : eventScheduleList 600 = sched600 := by
  norm_num [eventScheduleList, create_phases, truncQ, sched600]

/-- The schedule has no key strictly between 380 s and 395 s nor strictly
between 395 s and 398 s. -/
theorem sched600_keys_range :
    ∀ p ∈ sched600, p.1 ≤ 380000 ∨ p.1 = 395000 ∨ p.1 = 398000 ∨ 430000 ≤ p.1 := by
  intro p hp
  fin_cases hp <;> norm_num

theorem schedLookup_none_of_keys (l : List (ℤ × SimEvent)) (ms : ℤ)
    (h : ∀ p ∈ l, p.1 ≠ ms) : schedLookup l ms = none := by
  unfold schedLookup
  rw [List.find?_eq_none.mpr]
  · rfl
  · intro p hp
    simpa using h p (List.mem_reverse.mp hp)

/-- The emergency_braking phase's two events in the schedule. -/
theorem schedLookup_600_395000 :
    schedLookup (eventScheduleList 600) (10 * ((39500 : ℕ) : ℤ))
      = some { ty := "emergency_brake", description := "emergency brake",
               brake := some 100 } := by
  rw [eventScheduleList_600, show (10 * ((39500 : ℕ) : ℤ)) = 395000 by norm_num]
  rfl

theorem schedLookup_600_398000 :
    schedLookup (eventScheduleList 600) (10 * ((39800 : ℕ) : ℤ))
      = some { ty := "evasive_steering", description := "evasive steering",
               steering := some (-350) } := by
  rw [eventScheduleList_600, show (10 * ((39800 : ℕ) : ℤ)) = 398000 by norm_num]
  rfl

/-- No event is scheduled on the ticks strictly between 380 s and 395 s. -/
theorem sched600_gap1 : ∀ j : ℕ, 38001 ≤ j → j < 39500 →
    schedLookup (eventScheduleList 600) (10 * (j : ℤ)) = none := by
  intro j h1 h2
  rw [eventScheduleList_600]
  apply schedLookup_none_of_keys
  intro p hp
  have := sched600_keys_range p hp
  omega

/-- No event is scheduled on the ticks strictly between 395 s and 398 s. -/
theorem sched600_gap2 : ∀ j : ℕ, 39501 ≤ j → j < 39800 →
    schedLookup (eventScheduleList 600) (10 * (j : ℤ)) = none := by
  intro j h1 h2
  rw [eventScheduleList_600]
  apply schedLookup_none_of_keys
  intro p hp
  have := sched600_keys_range p hp
  omega

/-- The recovery countdown is spent by tick 39500 (39.5 s past the last
preceding scheduled event at 380 s, with windows of at most 4 s). -/
theorem c6_active_39500 (start : ℤ) (u : ℕ → ℚ) (di : ℕ → ℤ)
    (hdi : ∀ i, di i ≤ 4000) :
    (simRun 600 start u di 39500).active ≤ 0 := by
  have hub := simRun_active_ub 600 start u di 4000 (by norm_num) hdi 38001
  have hdecay := simRun_active_decay_ub 600 start u di 38001 4000 1499
    (fun j hj1 hj2 => sched600_gap1 j hj1 (by omega)) hub
  rw [show 38001 + 1499 = 39500 by norm_num] at hdecay
  rw [le_max_iff] at hdecay
  push_cast at hdecay
  omega

/-- The emergency_brake event at 395 s always fires and is logged, for any
legal draws. -/
theorem c6_emergency (start : ℤ) (u : ℕ → ℚ) (di : ℕ → ℤ)
    (hdi : ∀ i, di i ≤ 4000) :
    ∃ r ∈ (simRun 600 start u di 60000).events,
      r.tsMs = start + 395000 ∧ r.ty = "emergency_brake" := by
  have h395 := c6_active_39500 start u di hdi
  have hfire := simStep_proj_fire 600 start u di 39500
    (simRun 600 start u di 39500) _ schedLookup_600_395000 h395
  refine ⟨⟨start + 10 * ((39500 : ℕ) : ℤ), "emergency_brake", "emergency brake",
      (applyEventState
        { ty := "emergency_brake", description := "emergency brake", brake := some 100 }
        (simRun 600 start u di 39500).v).speed_kmh⟩,
    ?_, by show start + 10 * ((39500 : ℕ) : ℤ) = start + 395000; norm_num, rfl⟩
  apply simRun_events_mono 600 start u di 39501 60000 (by norm_num)
  rw [show (39501 : ℕ) = 39500 + 1 from rfl, simRun_succ, hfire.1]
  exact List.mem_append_right _ (List.mem_singleton.mpr rfl)

/-- With every recovery window drawn at `c`, the countdown right after the
395 s event is exactly `c - 10`. -/
theorem c6_active_39501 (start : ℤ) (u : ℕ → ℚ) (c : ℤ)
    (h2000 : 2000 ≤ c) (h4000 : c ≤ 4000) :
    (simRun 600 start u (fun _ => c) 39501).active = c - 10 := by
  have h395 := c6_active_39500 start u (fun _ => c) (fun _ => h4000)
  have hfire := simStep_proj_fire 600 start u (fun _ => c) 39500
    (simRun 600 start u (fun _ => c) 39500) _ schedLookup_600_395000 h395
  rw [show (39501 : ℕ) = 39500 + 1 from rfl, simRun_succ, hfire.2.1]
  unfold recDec
  rw [if_pos (by omega : c > 0)]

/-- With every recovery window drawn at `c ∈ [2000, 4000]`, the
evasive_steering entry at 398 s is in the log iff `c ≤ 3000`. -/
theorem c6_evasive_iff (start : ℤ) (u : ℕ → ℚ) (c : ℤ)
    (h2000 : 2000 ≤ c) (h4000 : c ≤ 4000) :
    ((∃ r ∈ (simRun 600 start u (fun _ => c) 60000).events,
        r.tsMs = start + 398000 ∧ r.ty = "evasive_steering") ↔ c ≤ 3000) := by
  have ha1 := c6_active_39501 start u c h2000 h4000
  constructor
  · rintro ⟨r, hr, hts, hty⟩
    by_contra hc
    obtain ⟨k, e, hk, hsch, htsk, htyk, hact⟩ :=
      simRun_events_mem 600 start u (fun _ => c) 60000 r hr
    have hk39800 : k = 39800 := by omega
    subst hk39800
    have hlb := simRun_active_decay_lb 600 start u (fun _ => c) 39501 299
      (fun j hj1 hj2 => sched600_gap2 j hj1 (by omega))
    rw [show 39501 + 299 = 39800 by norm_num] at hlb
    rw [ha1] at hlb
    push_cast at hlb
    omega
  · intro hc
    have hub := simRun_active_decay_ub 600 start u (fun _ => c) 39501 (c - 10) 299
      (fun j hj1 hj2 => sched600_gap2 j hj1 (by omega)) (le_of_eq ha1)
    rw [show 39501 + 299 = 39800 by norm_num] at hub
    have h398 : (simRun 600 start u (fun _ => c) 39800).active ≤ 0 := by
      rw [le_max_iff] at hub
      push_cast at hub
      omega
    have hfire := simStep_proj_fire 600 start u (fun _ => c) 39800
      (simRun 600 start u (fun _ => c) 39800) _ schedLookup_600_398000 h398
    refine ⟨⟨start + 10 * ((39800 : ℕ) : ℤ), "evasive_steering", "evasive steering",
        (applyEventState
          { ty := "evasive_steering", description := "evasive steering",
            steering := some (-350) }
          (simRun 600 start u (fun _ => c) 39800).v).speed_kmh⟩,
      ?_, by show start + 10 * ((39800 : ℕ) : ℤ) = start + 398000; norm_num, rfl⟩
    apply simRun_events_mono 600 start u (fun _ => c) 39801 60000 (by norm_num)
    rw [show (39801 : ℕ) = 39800 + 1 from rfl, simRun_succ, hfire.1]
    exact List.mem_append_right _ (List.mem_singleton.mpr rfl)

/-- The event log returned by `generate_can_data` is the log of the
`duration*100`-tick run. -/
theorem generate_can_data_events (vid : String) (d : ℕ) (start : ℤ)
    (u : ℕ → ℚ) (di : ℕ → ℤ) :
    (generate_can_data vid d start u di).2
      = (simRun d start u di (d * 100)).events := rfl

/-- C6 as amended: in the 600 s run, the emergency_brake event (phase
emergency_braking start 390 s, offset 5 s) is always applied and logged at
timestamp `start_time + 395 s`, for every draw of the 2000-4000 ms
recovery window; but the following evasive_steering event at offset 8 s is
logged at `start_time + 398 s` only when the recovery window drawn at the
emergency_brake event is at most 3000 ms — with all windows drawn at a
constant `c`, the entry is present iff `c ≤ 3000`, so draws above 3000 ms
silently drop it. -/
theorem emergency_always_evasive_iff_window (start : ℤ) (u : ℕ → ℚ) (c : ℤ)
    (h1 : 2000 ≤ c) (h2 : c ≤ 4000) :
    (∀ di : ℕ → ℤ, (∀ i, 2000 ≤ di i ∧ di i ≤ 4000) →
      ∃ r ∈ (generate_can_data "VH001" 600 start u di).2,
        r.tsMs = start + 395000 ∧ r.ty = "emergency_brake") ∧
    ((∃ r ∈ (generate_can_data "VH001" 600 start u (fun _ => c)).2,
        r.tsMs = start + 398000 ∧ r.ty = "evasive_steering") ↔ c ≤ 3000) := by
  constructor
  · intro di hdi
    rw [generate_can_data_events, show (600 * 100 : ℕ) = 60000 by norm_num]
    exact c6_emergency start u di (fun i => (hdi i).2)
  · rw [generate_can_data_events, show (600 * 100 : ℕ) = 60000 by norm_num]
    exact c6_evasive_iff start u c h1 h2

/-- Witness for `emergency_always_evasive_iff_window` at start 0, zero
noise stream, constant window 2000 ms. -/
theorem emergency_always_evasive_iff_window_witness :
    (∃ r ∈ (generate_can_data "VH001" 600 0 (fun _ => 0) (fun _ => 2000)).2,
      r.tsMs = 0 + 395000 ∧ r.ty = "emergency_brake") ∧
    (∃ r ∈ (generate_can_data "VH001" 600 0 (fun _ => 0) (fun _ => 2000)).2,
      r.tsMs = 0 + 398000 ∧ r.ty = "evasive_steering") := by
  have h := emergency_always_evasive_iff_window 0 (fun _ => 0) 2000
    (by norm_num) (by norm_num)
  exact ⟨h.1 (fun _ => 2000) (fun i => by norm_num), h.2.mpr (by norm_num)⟩

/-- C6 counterexample: with every recovery window drawn at 4000 ms (a legal
draw of `randint(2000, 4000)`), the event log of the 600 s run does NOT
contain an evasive_steering entry at `start_time + 398 s`: the
emergency_brake event's recovery window is still active at 398 s, so the
scheduled event is dropped — the claim's "for every draw" fails. -/
theorem evasive_steering_dropped_at_draw_4000 :
    ¬ ∃ r ∈ (generate_can_data "VH001" 600 0 (fun _ => 0) (fun _ => 4000)).2,
        r.tsMs = 0 + 398000 ∧ r.ty = "evasive_steering" := by
  intro h
  rw [generate_can_data_events, show (600 * 100 : ℕ) = 60000 by norm_num] at h
  have := (c6_evasive_iff 0 (fun _ => 0) 4000 (by norm_num) (by norm_num)).mp h
  norm_num at this

end VehicleCan
